import Mathlib

set_option maxRecDepth 10000

deriving instance DecidableEq for Except

/-!
Verification of the wg-tracker task pipeline (shallow embedding).

The Rust sources under `src/` are embedded as executable Lean definitions:

* `src/src/state/current.rs` — `State`, the `Task` variants and their `run`
  methods, `State::iterate`, `State::save`, `State::from_versioned_str`;
* `src/src/state/mod.rs` — `VersionedState::from_path`;
* `src/src/tracker.rs` — `Tracker::run` and its driver loop;
* `src/src/main.rs` — the process entry point;
* `src/src/util.rs` — `escape_markdown`, `extract_urls`;
* `src/src/config.rs`, `src/src/repo_config.rs` — plain config records.

External collaborators (the GitHub / Bugzilla clients of `src/src/query/mod.rs`,
the filesystem and the advisory lock) are modelled as oracles: a `Remote`
record of functions supplies each remote call's result, and a `World` record
supplies the lock outcome, the fetched repo config and the state-file
contents.  Rust `String` values are Lean `String`s; char-level algorithms
work on `String.data` (`List Char`).  `HashSet` fields are lists without
duplicates (insert-if-absent), `HashMap` fields are association lists whose
lookup takes the first match, so consing models `HashMap::insert`.
`serde_json` serialization of the state document is modelled by an explicit
injective length-prefixed encoder/decoder pair (`encStateDoc`/`decStateDoc`);
the version line framing of the snapshot file follows the source exactly.
-/

namespace WGT

/-- Error values of the `failure` crate: a message plus an optional cause,
as printed by `main`. -/
structure Err where
  msg : String
  cause : Option String := none
deriving DecidableEq

/-- Labels returned by the issue queries (`query::IssueLabel`). -/
structure IssueLabel where
  name : String
  color : String
deriving DecidableEq

/-- Issues returned by `query::updated_issues`, with the fields
`QueryWGIssuesTask::run` and `QueryDecisionsIssuesTask::run` use. -/
structure UpdatedIssue where
  id : String
  issue_number : Int
  issue_title : String
  issue_labels : List IssueLabel
  updated_at : String
deriving DecidableEq

/-- Comments returned by `query::issue_comments`. -/
structure IssueComment where
  url : String
  created_at : String
  body_text : String
deriving DecidableEq

/-- Labels returned by `query::known_labels`. -/
structure KnownLabel where
  name : String
  id : String
deriving DecidableEq

/-- `config::Config` (the `bugzilla_key` field is the one
`FileBugForDecisionsIssueWithDetailsTask::run` reads). -/
structure Config where
  github_key : String
  bugzilla_key : String
  wg_repo_owner : String
  wg_repo_name : String
  decisions_repo_owner : String
  decisions_repo_name : String
  state_directory : String
  start_date : String

/-- `Config::wg_repo_url`. -/
def Config.wg_repo_url (c : Config) : String :=
  "https://github.com/" ++ c.wg_repo_owner ++ "/" ++ c.wg_repo_name

/-- `Config::decisions_repo_url`. -/
def Config.decisions_repo_url (c : Config) : String :=
  "https://github.com/" ++ c.decisions_repo_owner ++ "/" ++ c.decisions_repo_name

/-- `repo_config::RepoConfigLabels`. -/
structure RepoConfigLabels where
  color : Option String
  prefixes : Option (List String)

/-- `repo_config::RepoConfig`; the `components` map is an association list
looked up with `List.lookup` (first match wins, as in `HashMap::get`). -/
structure RepoConfig where
  labels : Option RepoConfigLabels
  components : Option (List (String × String))

/-- Oracle for the remote collaborators in `query::*`: each field gives the
result of one remote call, keyed by the same arguments the source passes. -/
structure Remote where
  updated_issues : String → String → String → String → Except Err (List UpdatedIssue)
  issue_comments : String → String → String → Int → Except Err (List IssueComment)
  known_labels : String → String → String → Except Err (List KnownLabel)
  repo_id : String → String → String → Except Err (Option String)
  create_label : String → String → String → String → Except Err String
  create_issue : String → String → String → Option String → Option (List String) → Except Err Unit
  remove_labels : String → String → List String → Except Err Unit
  close_issue : String → String → Except Err Unit
  file_bug : String → String → String → String → String → List String → Except Err String
  issue_title_and_body : String → String → String → Int → Except Err (String × String)
  add_issue_comment : String → String → String → Except Err Unit

/-- The closed set of task variants of `state/current.rs` (the
`#[typetag::serde]` trait objects), as a sum type. -/
inductive Task where
  | queryWGIssues (since : String)
  | queryDecisionsIssues (since : String)
  | queryWGIssueComments (number : Int) (issue_title : String)
      (issue_labels : List IssueLabel) (since : String)
  | processWGComment (issue_number : Int) (issue_title : String)
      (issue_labels : List IssueLabel) (url : String) (body_text : String)
  | queryDecisionsKnownLabels
  | ensureLabel (name : String) (color : String)
  | queryDecisionsRepoID
  | fileIssue (issue_number : Int) (issue_title : String)
      (issue_labels : List String) (comment_url : String) (resolutions : List String)
  | removeDecisionsIssueBugLabel (issue_id : String)
  | closeIssue (issue_id : String)
  | fileBugForDecisionsIssue (product : String) (component : String)
      (issue_number : Int) (issue_id : String)
  | fileBugForDecisionsIssueWithDetails (product : String) (component : String)
      (summary : String) (description : String) (urls : List String)
      (issue_number : Int) (issue_id : String)
  | addIssueComment (issue_id : String) (body : String)
deriving DecidableEq

/-- `state::current::State`.  `tasks` is the `VecDeque` (head = front),
`posted_tasks` the staging list; the two `HashSet` ledgers are duplicate-free
lists; `known_labels` and `decisions_repo_id` are the `#[serde(skip)]`
transient caches. -/
structure State where
  tasks : List Task
  posted_tasks : List Task
  handled_wg_comments : List String
  handled_decisions_issues : List Int
  known_labels : Option (List (String × String))
  decisions_repo_id : Option String
  last_time_wg : String
  last_time_decisions : String
deriving DecidableEq

/-- `HashSet::insert`: add the element unless it is already present. -/
def setInsert {α : Type} [DecidableEq α] (l : List α) (x : α) : List α :=
  if x ∈ l then l else x :: l

/-- `HashMap::insert` on an association list whose lookup takes the first
match: consing the new binding shadows any old one. -/
def mapInsert (m : List (String × String)) (k v : String) : List (String × String) :=
  (k, v) :: m

/-- `State::new`. -/
def State.new (date : String) : State where
  tasks := []
  posted_tasks := []
  handled_wg_comments := []
  handled_decisions_issues := []
  known_labels := none
  decisions_repo_id := none
  last_time_wg := date ++ "T00:00:00Z"
  last_time_decisions := "2019-01-01T00:00:00Z"

/-- `State::post_task`: push onto the staging list. -/
def State.post_task (s : State) (t : Task) : State :=
  { s with posted_tasks := s.posted_tasks ++ [t] }

/-- `State::check_for_updates`: enqueue the two poll tasks at the back. -/
def State.check_for_updates (s : State) : State :=
  { s with tasks := s.tasks ++
      [Task.queryWGIssues s.last_time_wg, Task.queryDecisionsIssues s.last_time_decisions] }

/-- `State::is_finished`. -/
def State.is_finished (s : State) : Bool :=
  s.tasks.isEmpty && s.posted_tasks.isEmpty

/-! Char-level text helpers.  Rust `&str` operations are modelled on
`String.data`; UTF-8 byte order equals code-point order, so byte-wise
comparisons of the source become char-wise comparisons here. -/

/-- Lexicographic comparison of char lists (Rust `str` ordering). -/
def lexLeChars : List Char → List Char → Bool
  | [], _ => true
  | _ :: _, [] => false
  | x :: xs, y :: ys => if x = y then lexLeChars xs ys else decide (x.toNat < y.toNat)

/-- Rust `String` ordering (`comment.created_at >= since` etc.). -/
def timeLe (a b : String) : Bool := lexLeChars a.data b.data

/-- One splitting step of Rust `str::split(sep)`: fuel-indexed scan that cuts
at each occurrence of `sep`. -/
def splitOnSepGo (sep : List Char) : Nat → List Char → List Char → List (List Char)
  | 0, acc, _ => [acc.reverse]
  | _ + 1, acc, [] => [acc.reverse]
  | fuel + 1, acc, c :: rest =>
    if sep.isPrefixOf (c :: rest) then
      acc.reverse :: splitOnSepGo sep fuel [] ((c :: rest).drop sep.length)
    else
      splitOnSepGo sep fuel (c :: acc) rest

/-- Rust `str::split(sep)` for a non-empty separator. -/
def splitOnSep (sep l : List Char) : List (List Char) :=
  splitOnSepGo sep (l.length + 1) [] l

/-- Take the chars up to the first newline; `none` when there is none
(`str::find('\n')` failing). -/
def takeLine : List Char → List Char × Option (List Char)
  | [] => ([], none)
  | c :: rest =>
    if c = '\n' then ([], some rest)
    else
      let p := takeLine rest
      (c :: p.1, p.2)

/-- Strip one trailing carriage return (the `\r` of a `\r\n` line ending). -/
def stripCR (l : List Char) : List Char :=
  if l.getLast? = some '\r' then l.dropLast else l

/-- Fuel-indexed worker for Rust `str::lines`. -/
def rustLinesGo : Nat → List Char → List (List Char)
  | 0, _ => []
  | fuel + 1, l =>
    match takeLine l with
    | (ln, none) => if ln.isEmpty then [] else [ln]
    | (ln, some rest) => stripCR ln :: rustLinesGo fuel rest

/-- Rust `str::lines`: pieces split at `\n` (dropping a preceding `\r`),
without a trailing empty line for a final newline. -/
def rustLines (s : String) : List (List Char) :=
  rustLinesGo (s.data.length + 1) s.data

/-- The character class of `ESCAPE_MARKDOWN_RE`. -/
def escapeSet : List Char :=
  ['#', '&', '(', ')', '*', '+', '<', '>', '[', ']', '\\', '_', '`', '|', '-']

/-- Replacement for one matched char in `util::escape_markdown`. -/
def escapeMarkdownChar (c : Char) : List Char :=
  if c ∈ escapeSet then
    if c = '\\' then ['\\', '\\']
    else if c = '&' then ['&', 'a', 'm', 'p', ';']
    else if c = '<' then ['&', 'l', 't', ';']
    else if c = '>' then ['&', 'g', 't', ';']
    else if c = '|' then ['&', '1', '2', '4', ';']
    else ['\\', c]
  else [c]

/-- `util::escape_markdown`: per-char replacement of the regex class. -/
def escape_markdown (s : String) : String :=
  String.mk ((s.data.map escapeMarkdownChar).flatten)

/-- Fuel-indexed worker for `util::extract_urls` (`MARKDOWN_URLS_RE`,
`\((https:[^)]*)`): at each `(https:` match, capture up to the next `)` and
resume after the capture. -/
def extractUrlsGo : Nat → List Char → List (List Char)
  | 0, _ => []
  | _ + 1, [] => []
  | fuel + 1, c :: rest =>
    if c = '(' && List.isPrefixOf "https:".data rest then
      let t := rest.drop 6
      ("https:".data ++ t.takeWhile (· != ')')) :: extractUrlsGo fuel (t.dropWhile (· != ')'))
    else
      extractUrlsGo fuel rest

/-- `util::extract_urls`. -/
def extract_urls (s : String) : List String :=
  (extractUrlsGo s.data.length s.data).map String.mk

/-- Substring test (used to state what a rendered body contains). -/
def listContainsSub : List Char → List Char → Bool
  | _, [] => true
  | [], _ :: _ => false
  | x :: xs, p :: ps => List.isPrefixOf (p :: ps) (x :: xs) || listContainsSub xs (p :: ps)

/-- String-level wrapper of `listContainsSub`. -/
def strContains (hay needle : String) : Bool :=
  listContainsSub hay.data needle.data

/-- `state::current::parse_component`: split on `" :: "` and require exactly
two pieces. -/
def parse_component (s : String) : Except Err (String × String) :=
  match splitOnSep " :: ".data s.data with
  | [a, b] => .ok (String.mk a, String.mk b)
  | _ => .error { msg := "could not parse component '" ++ s ++ "'" }

/-- The `while let Some(c) = spec.pop()` loop of `QueryDecisionsIssuesTask`:
drop trailing decimal digits and hyphens. -/
def stripSpecId (s : String) : String :=
  String.mk ((s.data.reverse.dropWhile
    (fun c => (decide (48 ≤ c.toNat) && decide (c.toNat ≤ 57)) || c == '-')).reverse)

/-- Spec id of a `"[spec] <id>"` label: drop the 7-char marker, then strip
trailing digits and hyphens. -/
def specIdOfLabel (name : String) : String :=
  stripSpecId (String.mk (name.data.drop 7))

/-- The resolutions extracted by `ProcessWGCommentTask::run`: lines starting
with `"RESOLVED: "`, marker stripped. -/
def resolutionsOf (body_text : String) : List String :=
  ((rustLines body_text).filter (fun ln => List.isPrefixOf "RESOLVED: ".data ln)).map
    (fun ln => String.mk (ln.drop 10))

/-- Color match of the desired-labels loop (`label.color == *color`). -/
def labelColorMatches (lc : RepoConfigLabels) (label : IssueLabel) : Bool :=
  match lc.color with
  | some col => label.color == col
  | none => false

/-- Name-prefix match of the desired-labels loop. -/
def labelPrefixMatches (lc : RepoConfigLabels) (label : IssueLabel) : Bool :=
  match lc.prefixes with
  | some ps => ps.any (fun p => List.isPrefixOf p.data label.name.data)
  | none => false

/-- The desired-labels selection of `ProcessWGCommentTask::run`. -/
def desiredLabels (rc : RepoConfig) (labels : List IssueLabel) : List IssueLabel :=
  match rc.labels with
  | none => []
  | some lc => labels.filter (fun label => labelColorMatches lc label || labelPrefixMatches lc label)

/-- The components collected by the label loop of
`QueryDecisionsIssuesTask::run`. -/
def decisionIssueComponents (rc : RepoConfig) (labels : List IssueLabel) : List String :=
  labels.filterMap (fun label =>
    if List.isPrefixOf "[spec] ".data label.name.data then
      match rc.components with
      | some cs => List.lookup (specIdOfLabel label.name) cs
      | none => none
    else none)

/-- Product/component resolution of `QueryDecisionsIssuesTask::run`:
`components[0]` when there is exactly one, else the `"default"` entry, else
the fixed fallback. -/
def resolveProductComponent (rc : RepoConfig) (components : List String) :
    Except Err (String × String) :=
  match components with
  | [c] => parse_component c
  | _ =>
    match rc.components with
    | some cs =>
      match List.lookup "default" cs with
      | some c => parse_component c
      | none => .ok ("Invalid Bugs", "General")
    | none => .ok ("Invalid Bugs", "General")

/-- One iteration of the `for issue in issues` loop of
`QueryDecisionsIssuesTask::run`. -/
def processDecisionsIssue (rc : RepoConfig) (state : State) (issue : UpdatedIssue) :
    State × Option Err :=
  if issue.issue_number ∈ state.handled_decisions_issues then (state, none)
  else if !(issue.issue_labels.any (fun label => label.name == "bug")) then (state, none)
  else
    let state := { state with
      handled_decisions_issues := setInsert state.handled_decisions_issues issue.issue_number }
    match resolveProductComponent rc (decisionIssueComponents rc issue.issue_labels) with
    | .error e => (state, some e)
    | .ok (product, component) =>
      let state := state.post_task
        (.fileBugForDecisionsIssue product component issue.issue_number issue.id)
      let state := state.post_task (.removeDecisionsIssueBugLabel issue.id)
      (state.post_task (.closeIssue issue.id), none)

/-- The whole issue loop of `QueryDecisionsIssuesTask::run`; a failing
iteration aborts the loop, keeping the mutations already made. -/
def processDecisionsIssues (rc : RepoConfig) : State → List UpdatedIssue → State × Option Err
  | state, [] => (state, none)
  | state, issue :: rest =>
    match processDecisionsIssue rc state issue with
    | (s', some e) => (s', some e)
    | (s', none) => processDecisionsIssues rc s' rest

/-- The `body` built by `FileIssueTask::run`. -/
def fileIssueBody (config : Config) (issue_number : Int) (issue_title : String)
    (comment_url : String) (resolutions : List String) : String :=
  let plural := if resolutions.length = 1 then "A resolution was" else "Resolutions were"
  let issue_url := config.wg_repo_url ++ "/issues/" ++ toString issue_number
  plural ++ " made for [" ++ config.wg_repo_name ++ "/#" ++ toString issue_number ++ "](" ++
    issue_url ++ ").\n\n**" ++ escape_markdown issue_title ++ "**\n\n" ++
    String.join (resolutions.map (fun s => "* RESOLVED: " ++ escape_markdown s ++ "\n")) ++
    "\n\n[Discussion.](" ++ comment_url ++ ")\n\n----\n\n" ++
    "To file a bug automatically for these resolutions, add the **bug** label to the issue.\n\n" ++
    "If no bug is needed, the issue can be closed."

/-- `Task::run` dispatch: the `run` method of each `#[typetag::serde]` task
variant in `state/current.rs`.  The returned state keeps every mutation made
before a failure; the error, if any, is the second component. -/
def Task.run (t : Task) (state : State) (config : Config) (repo_config : RepoConfig)
    (rem : Remote) : State × Option Err :=
  match t with
  | .queryWGIssues since =>
    match rem.updated_issues config.github_key config.wg_repo_owner config.wg_repo_name since with
    | .error e => (state, some e)
    | .ok issues =>
      let state :=
        match issues.getLast? with
        | some issue => { state with last_time_wg := issue.updated_at }
        | none => state
      (issues.foldl (fun st issue =>
        st.post_task (.queryWGIssueComments issue.issue_number issue.issue_title
          issue.issue_labels since)) state, none)
  | .queryDecisionsIssues since =>
    match rem.updated_issues config.github_key config.decisions_repo_owner
        config.decisions_repo_name since with
    | .error e => (state, some e)
    | .ok issues =>
      let state :=
        match issues.getLast? with
        | some issue => { state with last_time_decisions := issue.updated_at }
        | none => state
      processDecisionsIssues repo_config state issues
  | .queryWGIssueComments number issue_title issue_labels since =>
    match rem.issue_comments config.github_key config.wg_repo_owner config.wg_repo_name number with
    | .error e => (state, some e)
    | .ok comments =>
      (comments.foldl (fun st comment =>
        if timeLe since comment.created_at then
          st.post_task (.processWGComment number issue_title issue_labels
            comment.url comment.body_text)
        else st) state, none)
  | .processWGComment issue_number issue_title issue_labels url body_text =>
    let resolutions := resolutionsOf body_text
    if resolutions.isEmpty then (state, none)
    else if url ∈ state.handled_wg_comments then (state, none)
    else
      let state := { state with
        handled_wg_comments := setInsert state.handled_wg_comments url }
      let desired := desiredLabels repo_config issue_labels
      let state := desired.foldl (fun st label =>
        st.post_task (.ensureLabel ("[spec] " ++ label.name) label.color)) state
      (state.post_task (.fileIssue issue_number issue_title
        (desired.map (fun l => "[spec] " ++ l.name)) url resolutions), none)
  | .queryDecisionsKnownLabels =>
    match rem.known_labels config.github_key config.decisions_repo_owner
        config.decisions_repo_name with
    | .error e => (state, some e)
    | .ok result =>
      let known := state.known_labels.getD []
      let merged := result.foldl (fun m label => mapInsert m label.name label.id) known
      ({ state with known_labels := some merged }, none)
  | .ensureLabel name color =>
    match state.known_labels with
    | none =>
      ((state.post_task .queryDecisionsKnownLabels).post_task (.ensureLabel name color), none)
    | some known =>
      match state.decisions_repo_id with
      | none =>
        ((state.post_task .queryDecisionsRepoID).post_task (.ensureLabel name color), none)
      | some rid =>
        if (List.lookup name known).isSome then (state, none)
        else
          match rem.create_label config.github_key rid name color with
          | .error e => (state, some e)
          | .ok label_id =>
            ({ state with known_labels := some (mapInsert known name label_id) }, none)
  | .queryDecisionsRepoID =>
    match rem.repo_id config.github_key config.decisions_repo_owner
        config.decisions_repo_name with
    | .error e => (state, some e)
    | .ok none => (state, some { msg := "repository not found" })
    | .ok (some rid) => ({ state with decisions_repo_id := some rid }, none)
  | .fileIssue issue_number issue_title issue_labels comment_url resolutions =>
    match state.known_labels with
    | none =>
      ((state.post_task .queryDecisionsKnownLabels).post_task
        (.fileIssue issue_number issue_title issue_labels comment_url resolutions), none)
    | some known =>
      match state.decisions_repo_id with
      | none =>
        ((state.post_task .queryDecisionsRepoID).post_task
          (.fileIssue issue_number issue_title issue_labels comment_url resolutions), none)
      | some rid =>
        let body := fileIssueBody config issue_number issue_title comment_url resolutions
        let label_ids := issue_labels.filterMap (fun s => List.lookup s known)
        match rem.create_issue config.github_key rid issue_title (some body) (some label_ids) with
        | .error e => (state, some e)
        | .ok _ => (state, none)
  | .removeDecisionsIssueBugLabel issue_id =>
    match state.known_labels with
    | none =>
      ((state.post_task .queryDecisionsKnownLabels).post_task
        (.removeDecisionsIssueBugLabel issue_id), none)
    | some known =>
      match List.lookup "bug" known with
      | none => (state, some { msg := "decisions repo missing 'bug' label" })
      | some label_id =>
        match rem.remove_labels config.github_key issue_id [label_id] with
        | .error e => (state, some e)
        | .ok _ => (state, none)
  | .closeIssue issue_id =>
    match rem.close_issue config.github_key issue_id with
    | .error e => (state, some e)
    | .ok _ => (state, none)
  | .fileBugForDecisionsIssue product component issue_number issue_id =>
    match rem.issue_title_and_body config.github_key config.decisions_repo_owner
        config.decisions_repo_name issue_number with
    | .error e => (state, some e)
    | .ok (title, body) =>
      let body' := (splitOnSep "----".data body.data).headD []
      let urls := extract_urls (String.mk body') ++
        [config.decisions_repo_url ++ "/issues/" ++ toString issue_number]
      (state.post_task (.fileBugForDecisionsIssueWithDetails product component title
        (String.mk body') urls issue_number issue_id), none)
  | .fileBugForDecisionsIssueWithDetails product component summary description urls _ issue_id =>
    match rem.file_bug config.bugzilla_key product component summary description urls with
    | .error e => (state, some e)
    | .ok url => (state.post_task (.addIssueComment issue_id url), none)
  | .addIssueComment issue_id body =>
    match rem.add_issue_comment config.github_key issue_id body with
    | .error e => (state, some e)
    | .ok _ => (state, none)

/-- The staging merge at the top of `State::iterate`: prepend `posted_tasks`
(in order) to the remaining queue and clear the staging list. -/
def mergePosted (s : State) : State :=
  if s.posted_tasks.isEmpty then s
  else { s with tasks := s.posted_tasks ++ s.tasks, posted_tasks := [] }

/-- `State::iterate`: merge staging, pop the front task, run it, and push it
back to the front on failure. -/
def State.iterate (s : State) (config : Config) (repo_config : RepoConfig) (rem : Remote) :
    State × Option Err :=
  let s := mergePosted s
  match s.tasks with
  | [] => (s, none)
  | t :: rest =>
    match t.run { s with tasks := rest } config repo_config rem with
    | (s', some e) => ({ s' with tasks := t :: s'.tasks }, some e)
    | (s', none) => (s', none)

/-! Snapshot persistence.  `State::save` writes `"1\n"` followed by the
serialized document of the persisted fields; `VersionedState::from_path`
splits the first line, parses it as a `u32`, and dispatches on the version.
The `serde_json` document itself is opaque to the source; here it is an
explicit injective encoding of the persisted fields (the `#[serde(skip)]`
caches are excluded on write and default to `None` on read, as serde does). -/

/-- Value of a decimal digit char. -/
def digitVal (c : Char) : Nat := c.toNat - 48

/-- Fuel-indexed decimal printer (most significant digit first). -/
def natToCharsGo : Nat → Nat → List Char
  | 0, _ => []
  | fuel + 1, n =>
    if n < 10 then [Nat.digitChar n]
    else natToCharsGo fuel (n / 10) ++ [Nat.digitChar (n % 10)]

/-- Decimal representation of a natural number. -/
def natToChars (n : Nat) : List Char := natToCharsGo (n + 1) n

/-- Decimal reading (fold over digit chars). -/
def charsToNat (l : List Char) : Nat := l.foldl (fun a c => a * 10 + digitVal c) 0

/-- Encode a length/number as decimal digits terminated by a colon. -/
def encNat (n : Nat) : List Char := natToChars n ++ [':']

/-- Decode a colon-terminated decimal number, returning the rest. -/
def decNat (l : List Char) : Option (Nat × List Char) :=
  match l.dropWhile Char.isDigit with
  | ':' :: r => some (charsToNat (l.takeWhile Char.isDigit), r)
  | _ => none

/-- Length-prefixed string encoding. -/
def encString (s : String) : List Char := encNat s.data.length ++ s.data

/-- Decode a length-prefixed string. -/
def decString (l : List Char) : Option (String × List Char) :=
  match decNat l with
  | some (n, r) => some (String.mk (r.take n), r.drop n)
  | none => none

/-- Sign-then-magnitude integer encoding. -/
def encInt (i : Int) : List Char := (if i < 0 then '-' else '+') :: encNat i.natAbs

/-- Decode a sign-then-magnitude integer. -/
def decInt (l : List Char) : Option (Int × List Char) :=
  match l with
  | '-' :: r =>
    match decNat r with
    | some (n, r') => some (-(n : Int), r')
    | none => none
  | '+' :: r =>
    match decNat r with
    | some (n, r') => some ((n : Int), r')
    | none => none
  | _ => none

/-- Count-prefixed list encoding. -/
def encListWith {α : Type} (enc : α → List Char) (xs : List α) : List Char :=
  encNat xs.length ++ (xs.map enc).flatten

/-- Decode a fixed number of elements. -/
def decListWithGo {α : Type} (dec : List Char → Option (α × List Char)) :
    Nat → List Char → Option (List α × List Char)
  | 0, l => some ([], l)
  | n + 1, l =>
    match dec l with
    | none => none
    | some (x, r) =>
      match decListWithGo dec n r with
      | none => none
      | some (xs, r') => some (x :: xs, r')

/-- Decode a count-prefixed list. -/
def decListWith {α : Type} (dec : List Char → Option (α × List Char)) (l : List Char) :
    Option (List α × List Char) :=
  match decNat l with
  | some (n, r) => decListWithGo dec n r
  | none => none

/-- Encode an issue label. -/
def encLabel (label : IssueLabel) : List Char := encString label.name ++ encString label.color

/-- Decode an issue label. -/
def decLabel (l : List Char) : Option (IssueLabel × List Char) :=
  match decString l with
  | some (name, r) =>
    match decString r with
    | some (color, r') => some ({ name := name, color := color }, r')
    | none => none
  | none => none

/-- Encode one task (tag, then fields). -/
def encTask : Task → List Char
  | .queryWGIssues since => encNat 0 ++ encString since
  | .queryDecisionsIssues since => encNat 1 ++ encString since
  | .queryWGIssueComments number issue_title issue_labels since =>
    encNat 2 ++ encInt number ++ encString issue_title ++
      encListWith encLabel issue_labels ++ encString since
  | .processWGComment issue_number issue_title issue_labels url body_text =>
    encNat 3 ++ encInt issue_number ++ encString issue_title ++
      encListWith encLabel issue_labels ++ encString url ++ encString body_text
  | .queryDecisionsKnownLabels => encNat 4
  | .ensureLabel name color => encNat 5 ++ encString name ++ encString color
  | .queryDecisionsRepoID => encNat 6
  | .fileIssue issue_number issue_title issue_labels comment_url resolutions =>
    encNat 7 ++ encInt issue_number ++ encString issue_title ++
      encListWith encString issue_labels ++ encString comment_url ++
      encListWith encString resolutions
  | .removeDecisionsIssueBugLabel issue_id => encNat 8 ++ encString issue_id
  | .closeIssue issue_id => encNat 9 ++ encString issue_id
  | .fileBugForDecisionsIssue product component issue_number issue_id =>
    encNat 10 ++ encString product ++ encString component ++ encInt issue_number ++
      encString issue_id
  | .fileBugForDecisionsIssueWithDetails product component summary description urls
      issue_number issue_id =>
    encNat 11 ++ encString product ++ encString component ++ encString summary ++
      encString description ++ encListWith encString urls ++ encInt issue_number ++
      encString issue_id
  | .addIssueComment issue_id body => encNat 12 ++ encString issue_id ++ encString body

/-- Decode one task. -/
def decTask (l : List Char) : Option (Task × List Char) :=
  match decNat l with
  | none => none
  | some (tag, r) =>
    if tag = 0 then
      match decString r with
      | some (since, r') => some (.queryWGIssues since, r')
      | none => none
    else if tag = 1 then
      match decString r with
      | some (since, r') => some (.queryDecisionsIssues since, r')
      | none => none
    else if tag = 2 then
      match decInt r with
      | some (number, r₁) =>
        match decString r₁ with
        | some (issue_title, r₂) =>
          match decListWith decLabel r₂ with
          | some (issue_labels, r₃) =>
            match decString r₃ with
            | some (since, r₄) =>
              some (.queryWGIssueComments number issue_title issue_labels since, r₄)
            | none => none
          | none => none
        | none => none
      | none => none
    else if tag = 3 then
      match decInt r with
      | some (issue_number, r₁) =>
        match decString r₁ with
        | some (issue_title, r₂) =>
          match decListWith decLabel r₂ with
          | some (issue_labels, r₃) =>
            match decString r₃ with
            | some (url, r₄) =>
              match decString r₄ with
              | some (body_text, r₅) =>
                some (.processWGComment issue_number issue_title issue_labels url body_text, r₅)
              | none => none
            | none => none
          | none => none
        | none => none
      | none => none
    else if tag = 4 then some (.queryDecisionsKnownLabels, r)
    else if tag = 5 then
      match decString r with
      | some (name, r₁) =>
        match decString r₁ with
        | some (color, r₂) => some (.ensureLabel name color, r₂)
        | none => none
      | none => none
    else if tag = 6 then some (.queryDecisionsRepoID, r)
    else if tag = 7 then
      match decInt r with
      | some (issue_number, r₁) =>
        match decString r₁ with
        | some (issue_title, r₂) =>
          match decListWith decString r₂ with
          | some (issue_labels, r₃) =>
            match decString r₃ with
            | some (comment_url, r₄) =>
              match decListWith decString r₄ with
              | some (resolutions, r₅) =>
                some (.fileIssue issue_number issue_title issue_labels comment_url resolutions, r₅)
              | none => none
            | none => none
          | none => none
        | none => none
      | none => none
    else if tag = 8 then
      match decString r with
      | some (issue_id, r') => some (.removeDecisionsIssueBugLabel issue_id, r')
      | none => none
    else if tag = 9 then
      match decString r with
      | some (issue_id, r') => some (.closeIssue issue_id, r')
      | none => none
    else if tag = 10 then
      match decString r with
      | some (product, r₁) =>
        match decString r₁ with
        | some (component, r₂) =>
          match decInt r₂ with
          | some (issue_number, r₃) =>
            match decString r₃ with
            | some (issue_id, r₄) =>
              some (.fileBugForDecisionsIssue product component issue_number issue_id, r₄)
            | none => none
          | none => none
        | none => none
      | none => none
    else if tag = 11 then
      match decString r with
      | some (product, r₁) =>
        match decString r₁ with
        | some (component, r₂) =>
          match decString r₂ with
          | some (summary, r₃) =>
            match decString r₃ with
            | some (description, r₄) =>
              match decListWith decString r₄ with
              | some (urls, r₅) =>
                match decInt r₅ with
                | some (issue_number, r₆) =>
                  match decString r₆ with
                  | some (issue_id, r₇) =>
                    some (.fileBugForDecisionsIssueWithDetails product component summary
                      description urls issue_number issue_id, r₇)
                  | none => none
                | none => none
              | none => none
            | none => none
          | none => none
        | none => none
      | none => none
    else if tag = 12 then
      match decString r with
      | some (issue_id, r₁) =>
        match decString r₁ with
        | some (body, r₂) => some (.addIssueComment issue_id body, r₂)
        | none => none
      | none => none
    else none

/-- The serialized document of the persisted `State` fields, in declaration
order, with the `#[serde(skip)]` caches excluded. -/
def encStateDoc (s : State) : List Char :=
  encListWith encTask s.tasks ++ encListWith encTask s.posted_tasks ++
    encListWith encString s.handled_wg_comments ++
    encListWith encInt s.handled_decisions_issues ++
    encString s.last_time_wg ++ encString s.last_time_decisions

/-- Decode the state document; the transient caches come back absent, and
trailing garbage is rejected (as `serde_json::from_str` does). -/
def decStateDoc (l : List Char) : Option State :=
  match decListWith decTask l with
  | none => none
  | some (tasks, r₁) =>
    match decListWith decTask r₁ with
    | none => none
    | some (posted_tasks, r₂) =>
      match decListWith decString r₂ with
      | none => none
      | some (handled_wg_comments, r₃) =>
        match decListWith decInt r₃ with
        | none => none
        | some (handled_decisions_issues, r₄) =>
          match decString r₄ with
          | none => none
          | some (last_time_wg, r₅) =>
            match decString r₅ with
            | none => none
            | some (last_time_decisions, r₆) =>
              match r₆ with
              | [] => some
                  { tasks := tasks
                    posted_tasks := posted_tasks
                    handled_wg_comments := handled_wg_comments
                    handled_decisions_issues := handled_decisions_issues
                    known_labels := none
                    decisions_repo_id := none
                    last_time_wg := last_time_wg
                    last_time_decisions := last_time_decisions }
              | _ :: _ => none

/-- `State::save`: the file contents written (via the temp-file-then-rename),
`"1\n"` followed by the serialized document. -/
def State.save_chars (s : State) : List Char :=
  '1' :: '\n' :: encStateDoc s

/-- `State::from_versioned_str`: reject any version other than 1, then parse
the document. -/
def State.from_versioned (version : Nat) (doc : List Char) : Except Err State :=
  if version ≠ 1 then
    .error { msg := "unknown state file version number " ++ toString version }
  else
    match decStateDoc doc with
    | some s => .ok s
    | none =>
      .error { msg := "could not parse state file v" ++ toString version
               cause := some "invalid state document" }

/-- `contents.find('\n')` plus the split into version line and document. -/
def splitAtNewline : List Char → Option (List Char × List Char)
  | [] => none
  | c :: cs =>
    if c = '\n' then some ([], cs)
    else
      match splitAtNewline cs with
      | none => none
      | some (a, b) => some (c :: a, b)

/-- Rust `str::parse::<u32>`: optional leading `+`, at least one digit, and
the value must fit in 32 bits. -/
def parseU32 (l : List Char) : Option Nat :=
  let l' := match l with
    | '+' :: r => r
    | _ => l
  if l'.isEmpty then none
  else if l'.all Char.isDigit then
    let n := charsToNat l'
    if n < 4294967296 then some n else none
  else none

/-- `VersionedState::from_path` on the file contents. -/
def VersionedState.from_path (contents : List Char) : Except Err State :=
  match splitAtNewline contents with
  | some (verChars, json) =>
    match parseU32 verChars with
    | some v => State.from_versioned v json
    | none =>
      .error { msg := "could not parse version number in state file"
               cause := some "invalid digit" }
  | none => .error { msg := "could not find version number in state file" }

/-! The driver (`Tracker::run` of `src/src/tracker.rs`) and the process entry
point (`src/src/main.rs`). -/

/-- The `loop` of `Tracker::run`, fuel-indexed: each step calls
`State::iterate`, then saves the state (first component collects the saved
snapshots in order), then propagates an error or stops when finished.
`rems k` supplies the remote results of step `k`; a `none` outcome means the
fuel ran out with the loop still going. -/
def runLoop (config : Config) (rc : RepoConfig) (rems : Nat → Remote) :
    Nat → State → List State × Option (Except Err Unit)
  | 0, _ => ([], none)
  | fuel + 1, s =>
    match s.iterate config rc (rems 0) with
    | (s', some e) => ([s'], some (.error e))
    | (s', none) =>
      if s'.is_finished then ([s'], some (.ok ()))
      else
        let rest := runLoop config rc (fun k => rems (k + 1)) fuel s'
        (s' :: rest.1, rest.2)

/-- Environment of one `Tracker::run` invocation: the advisory-lock attempt
(`try_lock`, which can itself fail creating the lockfile), the fetched and
parsed repo config, and the state file contents (`none` when the file does
not exist). -/
structure World where
  lock_acquired : Except Err Bool
  repo_config_fetch : Except Err RepoConfig
  statefile : Option (List Char)

/-- `Tracker::run`: silently succeed when the lock is held elsewhere;
otherwise fetch the repo config, restore or create the state, enqueue the
two poll tasks, and run the driver loop. -/
def Tracker.run (w : World) (config : Config) (rems : Nat → Remote) (fuel : Nat) :
    List State × Option (Except Err Unit) :=
  match w.lock_acquired with
  | .error e => ([], some (.error e))
  | .ok false => ([], some (.ok ()))
  | .ok true =>
    match w.repo_config_fetch with
    | .error e => ([], some (.error e))
    | .ok rc =>
      let loaded : Except Err State :=
        match w.statefile with
        | some contents => VersionedState.from_path contents
        | none => .ok (State.new config.start_date)
      match loaded with
      | .error e => ([], some (.error e))
      | .ok st => runLoop config rc rems fuel st.check_for_updates

/-- The line `main` prints on error: timestamp, message, optional cause. -/
def renderErrorLine (now : String) (e : Err) : String :=
  "[" ++ now ++ "] error: " ++ e.msg ++
    (match e.cause with
     | some c => ": " ++ c
     | none => "")

/-- `run()` of `main.rs`: load the config, then run the tracker. -/
def run_model (configLoad : Except Err Config) (trackerRun : Config → Except Err Unit) :
    Except Err Unit :=
  match configLoad with
  | .error e => .error e
  | .ok config => trackerRun config

/-- `main()`: the printed lines and the process exit status.  `main` returns
`()` after the `if let Err`, so the Rust process exits with status 0 on both
paths. -/
def main_model (runResult : Except Err Unit) (now : String) : List String × Nat :=
  match runResult with
  | .error e => ([renderErrorLine now e], 0)
  | .ok _ => ([], 0)

/-! Counting helpers used to state the idempotence claims. -/

/-- Is this a `FileBugForDecisionsIssueTask` for issue number `n`? -/
def isFileBugForIssue (n : Int) : Task → Bool
  | .fileBugForDecisionsIssue _ _ m _ => m == n
  | _ => false

/-- Number of staged `FileBugForDecisionsIssueTask`s for issue `n`. -/
def countFileBug (n : Int) (ts : List Task) : Nat := ts.countP (isFileBugForIssue n)

/-- Is this a `FileIssueTask` (FileDecisionIssue)? -/
def isFileIssueTask : Task → Bool
  | .fileIssue _ _ _ _ _ => true
  | _ => false

/-- Number of staged `FileIssueTask`s. -/
def countFileIssue (ts : List Task) : Nat := ts.countP isFileIssueTask

/-- Total `FileBugForDecisionsIssueTask`s for issue `n` staged across a run:
`iterate` first merges (and clears) the staging list, so after each step the
`posted_tasks` of the saved snapshot are exactly the tasks staged by that
step. -/
def totalStaged (n : Int) (saves : List State) : Nat :=
  (saves.map (fun s => countFileBug n s.posted_tasks)).sum

/-! Concrete fixtures used by the witness theorems. -/

/-- A concrete configuration for witnesses. -/
def cfgW : Config where
  github_key := "k"
  bugzilla_key := "bk"
  wg_repo_owner := "o"
  wg_repo_name := "wg"
  decisions_repo_owner := "dec-o"
  decisions_repo_name := "dec-n"
  state_directory := "/var/lib/wg-tracker"
  start_date := "2020-01-01"

/-- An empty repo config for witnesses. -/
def rcW : RepoConfig where
  labels := none
  components := none

/-- A remote whose every call fails. -/
def remBoom : Remote where
  updated_issues := fun _ _ _ _ => .error { msg := "boom" }
  issue_comments := fun _ _ _ _ => .error { msg := "boom" }
  known_labels := fun _ _ _ => .error { msg := "boom" }
  repo_id := fun _ _ _ => .error { msg := "boom" }
  create_label := fun _ _ _ _ => .error { msg := "boom" }
  create_issue := fun _ _ _ _ _ => .error { msg := "boom" }
  remove_labels := fun _ _ _ => .error { msg := "boom" }
  close_issue := fun _ _ => .error { msg := "boom" }
  file_bug := fun _ _ _ _ _ _ => .error { msg := "boom" }
  issue_title_and_body := fun _ _ _ _ => .error { msg := "boom" }
  add_issue_comment := fun _ _ _ => .error { msg := "boom" }

/-! General lemmas about staging. -/

/-- Folding `post_task` over a list appends the produced tasks in order. -/
theorem foldl_post_task {α : Type} (f : α → Task) (xs : List α) (s : State) :
    xs.foldl (fun st x => st.post_task (f x)) s =
      { s with posted_tasks := s.posted_tasks ++ xs.map f } := by
  induction xs generalizing s with
  | nil => simp
  | cons x xs ih =>
    rw [List.foldl_cons, ih]
    simp [State.post_task, List.append_assoc]

/-- Characterization of `ProcessWGCommentTask::run`: a no-op when there are
no resolutions or the URL is already handled; otherwise it marks the URL
handled and stages the `EnsureLabel`s followed by one `FileIssueTask`. -/
theorem processWGComment_run_eq (config : Config) (rc : RepoConfig) (rem : Remote)
    (n : Int) (ti : String) (ls : List IssueLabel) (url b : String) (s : State) :
    (Task.processWGComment n ti ls url b).run s config rc rem =
      if resolutionsOf b = [] ∨ url ∈ s.handled_wg_comments then (s, none)
      else
        ({ s with
            handled_wg_comments := setInsert s.handled_wg_comments url
            posted_tasks := s.posted_tasks ++
              (desiredLabels rc ls).map (fun l => .ensureLabel ("[spec] " ++ l.name) l.color) ++
              [.fileIssue n ti ((desiredLabels rc ls).map (fun l => "[spec] " ++ l.name)) url
                (resolutionsOf b)] }, none) := by
  by_cases hres : resolutionsOf b = []
  · simp [Task.run, hres]
  · by_cases hurl : url ∈ s.handled_wg_comments
    · simp [Task.run, hres, hurl, List.isEmpty_iff]
    · simp only [Task.run, List.isEmpty_iff, hres, hurl, if_false, ite_false, ite_true,
        eq_self_iff_true, not_false_iff]
      rw [foldl_post_task]
      simp [State.post_task, hres, hurl, List.append_assoc]

/-- Inserting an element makes it a member. -/
theorem mem_setInsert_self {α : Type} [DecidableEq α] (l : List α) (x : α) :
    x ∈ setInsert l x := by
  by_cases h : x ∈ l <;> simp [setInsert, h]

/-- Inserting preserves the previous members. -/
theorem subset_setInsert {α : Type} [DecidableEq α] (l : List α) (x : α) :
    l ⊆ setInsert l x := by
  intro y hy
  by_cases h : x ∈ l <;> simp [setInsert, h, hy]

/-- C1: when the popped front task fails, `State::iterate` pushes it back to
the front of the queue, keeps whatever the failing task had already staged
(`posted_tasks` is exactly the post-run staging list, to be merged to the
front of the queue at the start of the next step), and returns the error;
the driver loop of `Tracker::run` saves exactly that state and then halts
propagating the same error. -/
theorem c1_failed_step_requeues_saves_halts
    (config : Config) (rc : RepoConfig) (rems : Nat → Remote) (fuel : Nat)
    (s s' : State) (t : Task) (rest : List Task) (e : Err)
    (hq : (mergePosted s).tasks = t :: rest)
    (hrun : t.run { mergePosted s with tasks := rest } config rc (rems 0) = (s', some e)) :
    s.iterate config rc (rems 0) = ({ s' with tasks := t :: s'.tasks }, some e) ∧
    runLoop config rc rems (fuel + 1) s = ([{ s' with tasks := t :: s'.tasks }], some (.error e)) ∧
    ({ s' with tasks := t :: s'.tasks }).posted_tasks = s'.posted_tasks ∧
    mergePosted { s' with tasks := t :: s'.tasks } =
      { s' with tasks := s'.posted_tasks ++ t :: s'.tasks, posted_tasks := [] } := by
  have hiter : s.iterate config rc (rems 0) = ({ s' with tasks := t :: s'.tasks }, some e) := by
    simp only [State.iterate, hq, hrun]
  refine ⟨hiter, ?_, rfl, ?_⟩
  · simp only [runLoop, hiter]
  · by_cases hp : s'.posted_tasks = [] <;>
      simp [mergePosted, List.isEmpty_iff, hp]

/-- A state holding a single poll task, for the C1 witness. -/
def sA : State := { State.new "2020-01-01" with tasks := [Task.queryWGIssues "t"] }

/-- C1 witness: a concrete failing step (the remote poll fails), exercising
`c1_failed_step_requeues_saves_halts` with both hypotheses discharged. -/
theorem c1_witness :
    State.iterate sA cfgW rcW ((fun _ => remBoom) 0) = (sA, some { msg := "boom" }) ∧
    runLoop cfgW rcW (fun _ => remBoom) (0 + 1) sA = ([sA], some (.error { msg := "boom" })) ∧
    sA.posted_tasks = (State.new "2020-01-01").posted_tasks ∧
    mergePosted sA =
      { State.new "2020-01-01" with tasks := [Task.queryWGIssues "t"], posted_tasks := [] } :=
  c1_failed_step_requeues_saves_halts cfgW rcW (fun _ => remBoom) 0 sA
    (State.new "2020-01-01") (Task.queryWGIssues "t") [] { msg := "boom" }
    (by decide) (by decide)

/-- C2: two executions of `ProcessWGCommentTask` with the same `url` stage at
most one `FileIssueTask` in total; an execution whose URL is already in
`handled_wg_comments` is an exact no-op, and a first successful execution
with non-empty resolutions marks the URL handled. -/
theorem c2_process_comment_idempotent
    (config config₂ : Config) (rc rc₂ : RepoConfig) (rem rem₂ : Remote) (s s₁ s₂ : State)
    (n₁ n₂ : Int) (ti₁ ti₂ : String) (ls₁ ls₂ : List IssueLabel) (url b₁ b₂ : String)
    (r₁ r₂ : Option Err)
    (h₁ : (Task.processWGComment n₁ ti₁ ls₁ url b₁).run s config rc rem = (s₁, r₁))
    (h₂ : (Task.processWGComment n₂ ti₂ ls₂ url b₂).run s₁ config₂ rc₂ rem₂ = (s₂, r₂)) :
    countFileIssue s₂.posted_tasks ≤ countFileIssue s.posted_tasks + 1 ∧
    (url ∈ s.handled_wg_comments → s₁ = s ∧ r₁ = none) ∧
    (resolutionsOf b₁ ≠ [] → url ∉ s.handled_wg_comments → url ∈ s₁.handled_wg_comments) := by
  rw [processWGComment_run_eq] at h₁ h₂
  have hcount : ∀ (st : State) (nn : Int) (tt : String) (ll : List IssueLabel) (uu : String)
      (bb : String),
      countFileIssue ({ st with
        handled_wg_comments := setInsert st.handled_wg_comments uu
        posted_tasks := st.posted_tasks ++
          (desiredLabels rc₂ ll).map (fun l => .ensureLabel ("[spec] " ++ l.name) l.color) ++
          [.fileIssue nn tt ((desiredLabels rc₂ ll).map (fun l => "[spec] " ++ l.name)) uu
            (resolutionsOf bb)] } : State).posted_tasks =
        countFileIssue st.posted_tasks + 1 := by
    intro st nn tt ll uu bb
    simp [countFileIssue, List.countP_append, List.countP_map, Function.comp_def,
      isFileIssueTask, List.countP_eq_zero]
  by_cases hc₁ : resolutionsOf b₁ = [] ∨ url ∈ s.handled_wg_comments
  · rw [if_pos hc₁] at h₁
    injection h₁ with hs₁ hr₁
    subst hs₁
    refine ⟨?_, fun _ => ⟨rfl, hr₁.symm⟩, ?_⟩
    · by_cases hc₂ : resolutionsOf b₂ = [] ∨ url ∈ s.handled_wg_comments
      · rw [if_pos hc₂] at h₂
        injection h₂ with hs₂ _
        rw [← hs₂]
        exact Nat.le_succ _
      · rw [if_neg hc₂] at h₂
        injection h₂ with hs₂ _
        rw [← hs₂]
        have := hcount s n₂ ti₂ ls₂ url b₂
        omega
    · intro hres hurl
      rcases hc₁ with h | h
      · exact absurd h hres
      · exact absurd h hurl
  · push_neg at hc₁
    obtain ⟨hres, hurl⟩ := hc₁
    rw [if_neg (by simp [hres, hurl])] at h₁
    injection h₁ with hs₁ hr₁
    have hmem : url ∈ s₁.handled_wg_comments := by
      rw [← hs₁]
      exact mem_setInsert_self _ _
    rw [if_pos (Or.inr hmem)] at h₂
    injection h₂ with hs₂ hr₂
    refine ⟨?_, fun hu => absurd hu hurl, fun _ _ => hmem⟩
    rw [← hs₂, ← hs₁]
    simp [countFileIssue, List.countP_append, List.countP_map, Function.comp_def,
      isFileIssueTask, List.countP_eq_zero]

/-- C2 witness: processing the comment `"RESOLVED: x\n"` at URL `"u"` twice
from a fresh state stages exactly one `FileIssueTask`. -/
theorem c2_witness :
    countFileIssue ({ State.new "2020-01-01" with
        handled_wg_comments := ["u"]
        posted_tasks := [Task.fileIssue 1 "T" [] "u" ["x"]] } : State).posted_tasks ≤
      countFileIssue (State.new "2020-01-01").posted_tasks + 1 ∧
    ("u" ∈ (State.new "2020-01-01").handled_wg_comments →
      ({ State.new "2020-01-01" with
          handled_wg_comments := ["u"]
          posted_tasks := [Task.fileIssue 1 "T" [] "u" ["x"]] } : State) = State.new "2020-01-01" ∧
        (none : Option Err) = none) ∧
    (resolutionsOf "RESOLVED: x\n" ≠ [] → "u" ∉ (State.new "2020-01-01").handled_wg_comments →
      "u" ∈ ({ State.new "2020-01-01" with
          handled_wg_comments := ["u"]
          posted_tasks := [Task.fileIssue 1 "T" [] "u" ["x"]] } : State).handled_wg_comments) :=
  c2_process_comment_idempotent cfgW cfgW rcW rcW remBoom remBoom
    (State.new "2020-01-01")
    { State.new "2020-01-01" with
        handled_wg_comments := ["u"]
        posted_tasks := [Task.fileIssue 1 "T" [] "u" ["x"]] }
    { State.new "2020-01-01" with
        handled_wg_comments := ["u"]
        posted_tasks := [Task.fileIssue 1 "T" [] "u" ["x"]] }
    1 1 "T" "T" [] [] "u" "RESOLVED: x\n" "RESOLVED: x\n" none none
    (by decide) (by decide)

/-- C6: `EnsureLabelTask::run` defers by staging the labels loader (or the
repo-id loader) followed by a copy of itself and succeeding — for every
remote, hence without a remote call; is a pure no-op when the label name is
already cached; and otherwise creates the label remotely and caches the
returned id (or fails with the remote error, mutating nothing). -/
theorem c6_ensure_label_cases
    (config : Config) (rc : RepoConfig) (rem : Remote) (s : State)
    (name color : String) (known : List (String × String)) (rid label_id : String) (e : Err) :
    (s.known_labels = none →
      (Task.ensureLabel name color).run s config rc rem =
        ({ s with posted_tasks := s.posted_tasks ++
            [Task.queryDecisionsKnownLabels, Task.ensureLabel name color] }, none)) ∧
    (s.known_labels = some known → s.decisions_repo_id = none →
      (Task.ensureLabel name color).run s config rc rem =
        ({ s with posted_tasks := s.posted_tasks ++
            [Task.queryDecisionsRepoID, Task.ensureLabel name color] }, none)) ∧
    (s.known_labels = some known → s.decisions_repo_id = some rid →
      (List.lookup name known).isSome = true →
      (Task.ensureLabel name color).run s config rc rem = (s, none)) ∧
    (s.known_labels = some known → s.decisions_repo_id = some rid →
      List.lookup name known = none →
      rem.create_label config.github_key rid name color = .ok label_id →
      (Task.ensureLabel name color).run s config rc rem =
        ({ s with known_labels := some (mapInsert known name label_id) }, none)) ∧
    (s.known_labels = some known → s.decisions_repo_id = some rid →
      List.lookup name known = none →
      rem.create_label config.github_key rid name color = .error e →
      (Task.ensureLabel name color).run s config rc rem = (s, some e)) := by
  refine ⟨?_, ?_, ?_, ?_, ?_⟩ <;> intros <;>
    simp [Task.run, State.post_task, List.append_assoc, *]

/-- C6 witness: with an empty label cache, `EnsureLabel` stages the loader
then itself, succeeding against the all-failing remote (no remote call). -/
theorem c6_witness :
    (Task.ensureLabel "[spec] css" "ff0000").run (State.new "2020-01-01") cfgW rcW remBoom =
      ({ State.new "2020-01-01" with posted_tasks :=
          [Task.queryDecisionsKnownLabels, Task.ensureLabel "[spec] css" "ff0000"] }, none) :=
  (c6_ensure_label_cases cfgW rcW remBoom (State.new "2020-01-01") "[spec] css" "ff0000"
    [] "" "" { msg := "" }).1 rfl

/-- C8 counterexample: for the claimed comment on issue 42 titled
"Encoding", `escape_markdown` escapes the hyphen of "Use UTF-8", so the
rendered decision-issue body does not contain the line
`* RESOLVED: Use UTF-8` the claim asserts (it contains the escaped form
instead, see the amended theorem). -/
theorem c8_counterexample :
    strContains (fileIssueBody cfgW 42 "Encoding" "https://example.org/c1"
      ["Use UTF-8", "Reject nulls"]) "* RESOLVED: Use UTF-8" = false := by decide

/-- C8 amended: processing that comment stages a `FileIssueTask` whose
`resolutions` are `["Use UTF-8", "Reject nulls"]`, and the rendered body
contains `* RESOLVED: Use UTF\-8` (hyphen escaped by `escape_markdown`),
`* RESOLVED: Reject nulls`, and `**Encoding**`. -/
theorem c8_amended :
    (Task.processWGComment 42 "Encoding" [] "https://example.org/c1"
        "Some text\nRESOLVED: Use UTF-8\nRESOLVED: Reject nulls\n").run
        (State.new "2020-01-01") cfgW rcW remBoom =
      ({ State.new "2020-01-01" with
          handled_wg_comments := ["https://example.org/c1"]
          posted_tasks := [Task.fileIssue 42 "Encoding" [] "https://example.org/c1"
            ["Use UTF-8", "Reject nulls"]] }, none) ∧
    strContains (fileIssueBody cfgW 42 "Encoding" "https://example.org/c1"
      ["Use UTF-8", "Reject nulls"]) "* RESOLVED: Use UTF\\-8" = true ∧
    strContains (fileIssueBody cfgW 42 "Encoding" "https://example.org/c1"
      ["Use UTF-8", "Reject nulls"]) "* RESOLVED: Reject nulls" = true ∧
    strContains (fileIssueBody cfgW 42 "Encoding" "https://example.org/c1"
      ["Use UTF-8", "Reject nulls"]) "**Encoding**" = true := by decide

/-- C9 counterexample: when `run()` fails (here: the config file cannot be
opened), `main` prints the timestamped line but still returns `()`, so the
process exit status is 0, not the non-zero status the claim asserts. -/
theorem c9_counterexample :
    (main_model (run_model
        (.error { msg := "could not open config file", cause := some "No such file" })
        (fun _ => .ok ())) "2026-02-03 10:00:00").2 = 0 := rfl

/-- C9 amended: on failure `main` prints exactly one timestamped line (with
the optional cause appended) and exits with status 0; on success it prints
nothing and also exits with status 0 (Rust `main` returns `()` on both
paths, so the process status is always 0). -/
theorem c9_amended (e : Err) (now : String) (res : Except Err Unit) :
    main_model (.error e) now = ([renderErrorLine now e], 0) ∧
    main_model (.ok ()) now = ([], 0) ∧
    (main_model res now).2 = 0 ∧
    (main_model res now).1.length ≤ 1 := by
  refine ⟨rfl, rfl, ?_, ?_⟩ <;> cases res <;> simp [main_model]

/-- C10: when the advisory lock is already held elsewhere (`try_lock`
returns `Ok(false)`), `Tracker::run` returns success immediately: no
snapshot is saved, and the result does not depend on the remotes, the state
file or the repo config — the equation's right-hand side is a constant. -/
theorem c10_lock_held_silent_success (w : World) (config : Config) (rems : Nat → Remote)
    (fuel : Nat) (h : w.lock_acquired = .ok false) :
    Tracker.run w config rems fuel = ([], some (.ok ())) := by
  simp [Tracker.run, h]

/-- A world whose lock is held elsewhere, with a failing repo-config fetch
and a garbage state file, for the C10 witness. -/
def wLocked : World where
  lock_acquired := .ok false
  repo_config_fetch := .error { msg := "network down" }
  statefile := some ['g', 'a', 'r', 'b', 'a', 'g', 'e']

/-- C10 witness: even with a broken network, a garbage state file and an
all-failing remote, a lock-held run silently succeeds without saving. -/
theorem c10_witness :
    Tracker.run wLocked cfgW (fun _ => remBoom) 7 = ([], some (.ok ())) :=
  c10_lock_held_silent_success wLocked cfgW (fun _ => remBoom) 7 rfl

/-- The repo config of the C7 scenario: component map
`{"widget": "Widgets :: Core"}`. -/
def rcScenario : RepoConfig where
  labels := none
  components := some [("widget", "Widgets :: Core")]

/-- The decision issue of the C7 scenario, labeled
`["bug", "[spec] widget-12"]`. -/
def issueScenario : UpdatedIssue where
  id := "I1"
  issue_number := 5
  issue_title := "D"
  issue_labels := [{ name := "bug", color := "c1" }, { name := "[spec] widget-12", color := "c2" }]
  updated_at := "2020-01-01T00:00:00Z"

/-- C7: for a decision issue carrying the "bug" label, the collected
components are exactly the map lookups of the stripped ids of its
`"[spec] <id>"` labels; exactly one match resolves by splitting that entry,
otherwise the `"default"` entry is used when present, otherwise the fixed
fallback `("Invalid Bugs", "General")`; a resolved issue stages the `FileBug`
task with that product/component (followed by the label-removal and close
tasks); and the concrete scenario with map `{"widget": "Widgets :: Core"}`
stages product `"Widgets"`, component `"Core"`. -/
theorem c7_component_resolution
    (rc : RepoConfig) (cs : List (String × String)) (s : State) (issue : UpdatedIssue)
    (c d p q : String) (comps : List String)
    (hn : issue.issue_number ∉ s.handled_decisions_issues)
    (hbug : issue.issue_labels.any (fun l => l.name == "bug") = true)
    (hres : resolveProductComponent rc (decisionIssueComponents rc issue.issue_labels) =
      .ok (p, q)) :
    decisionIssueComponents rc issue.issue_labels =
      issue.issue_labels.filterMap (fun label =>
        if List.isPrefixOf "[spec] ".data label.name.data then
          rc.components.bind (fun m =>
            List.lookup (stripSpecId (String.mk (label.name.data.drop 7))) m)
        else none) ∧
    resolveProductComponent rc [c] = parse_component c ∧
    (comps.length ≠ 1 → rc.components = some cs → List.lookup "default" cs = some d →
      resolveProductComponent rc comps = parse_component d) ∧
    (comps.length ≠ 1 → rc.components = some cs → List.lookup "default" cs = none →
      resolveProductComponent rc comps = .ok ("Invalid Bugs", "General")) ∧
    (comps.length ≠ 1 → rc.components = none →
      resolveProductComponent rc comps = .ok ("Invalid Bugs", "General")) ∧
    processDecisionsIssue rc s issue =
      ({ s with
          handled_decisions_issues := setInsert s.handled_decisions_issues issue.issue_number
          posted_tasks := s.posted_tasks ++
            [Task.fileBugForDecisionsIssue p q issue.issue_number issue.id,
             Task.removeDecisionsIssueBugLabel issue.id,
             Task.closeIssue issue.id] }, none) ∧
    processDecisionsIssue rcScenario (State.new "2019-01-01") issueScenario =
      ({ State.new "2019-01-01" with
          handled_decisions_issues := [5]
          posted_tasks := [Task.fileBugForDecisionsIssue "Widgets" "Core" 5 "I1",
            Task.removeDecisionsIssueBugLabel "I1", Task.closeIssue "I1"] }, none) := by
  have hlen : ∀ (l : List String), l.length ≠ 1 → (∀ x, l ≠ [x]) := by
    intro l hl x hx
    rw [hx] at hl
    exact hl rfl
  refine ⟨?_, rfl, ?_, ?_, ?_, ?_, by decide⟩
  · cases hrc : rc.components <;>
      simp [decisionIssueComponents, specIdOfLabel, hrc]
  · intro hl hrc hd
    cases comps with
    | nil => simp [resolveProductComponent, hrc, hd]
    | cons x xs =>
      cases xs with
      | nil => simp at hl
      | cons y ys => simp [resolveProductComponent, hrc, hd]
  · intro hl hrc hd
    cases comps with
    | nil => simp [resolveProductComponent, hrc, hd]
    | cons x xs =>
      cases xs with
      | nil => simp at hl
      | cons y ys => simp [resolveProductComponent, hrc, hd]
  · intro hl hrc
    cases comps with
    | nil => simp [resolveProductComponent, hrc]
    | cons x xs =>
      cases xs with
      | nil => simp at hl
      | cons y ys => simp [resolveProductComponent, hrc]
  · simp only [processDecisionsIssue, hbug, hn, if_neg, if_false, not_false_iff, ite_true,
      ite_false, Bool.not_true]
    simp only [hres]
    simp [State.post_task, List.append_assoc, hn]

/-- C7 witness: the scenario issue resolves to product "Widgets", component
"Core" through `c7_component_resolution` with all hypotheses discharged. -/
theorem c7_witness :
    processDecisionsIssue rcScenario (State.new "2019-01-01") issueScenario =
      ({ State.new "2019-01-01" with
          handled_decisions_issues := [5]
          posted_tasks := [Task.fileBugForDecisionsIssue "Widgets" "Core" 5 "I1",
            Task.removeDecisionsIssueBugLabel "I1", Task.closeIssue "I1"] }, none) :=
  (c7_component_resolution rcScenario [("widget", "Widgets :: Core")] (State.new "2019-01-01")
    issueScenario "X :: Y" "X :: Y" "Widgets" "Core" []
    (by decide) (by decide) (by decide)).2.2.2.2.2.2

/-- Reflexivity of the char-list lexicographic comparison. -/
theorem lexLeChars_refl (l : List Char) : lexLeChars l l = true := by
  induction l with
  | nil => rfl
  | cons c cs ih => simp [lexLeChars, ih]

/-- Reflexivity of the string comparison. -/
theorem timeLe_refl (s : String) : timeLe s s = true := lexLeChars_refl s.data

/-- In a batch sorted non-decreasingly by `updatedAt`, every element is
`≤` the last one. -/
theorem pairwise_timeLe_getLast (l : List UpdatedIssue) (h : l ≠ [])
    (hp : l.Pairwise (fun a b => timeLe a.updated_at b.updated_at = true)) :
    ∀ i ∈ l, timeLe i.updated_at ((l.getLast h).updated_at) = true := by
  induction l with
  | nil => exact absurd rfl h
  | cons x xs ih =>
    intro i hi
    rcases List.pairwise_cons.mp hp with ⟨hx, hp'⟩
    rcases List.mem_cons.mp hi with rfl | hi'
    · cases xs with
      | nil => simpa using timeLe_refl i.updated_at
      | cons y ys =>
        rw [List.getLast_cons (by simp)]
        exact hx _ (List.getLast_mem (by simp))
    · cases xs with
      | nil => cases hi'
      | cons y ys =>
        rw [List.getLast_cons (by simp)]
        exact ih (by simp) hp' i hi'

/-- The decision-issue loop never touches the two watermarks. -/
theorem processDecisionsIssue_watermarks (rc : RepoConfig) (s : State) (issue : UpdatedIssue) :
    (processDecisionsIssue rc s issue).1.last_time_decisions = s.last_time_decisions ∧
    (processDecisionsIssue rc s issue).1.last_time_wg = s.last_time_wg := by
  unfold processDecisionsIssue
  split
  · simp
  · split
    · simp
    · split <;> simp [State.post_task]

/-- Neither does the whole loop. -/
theorem processDecisionsIssues_watermarks (rc : RepoConfig) :
    ∀ (B : List UpdatedIssue) (s : State),
      (processDecisionsIssues rc s B).1.last_time_decisions = s.last_time_decisions ∧
      (processDecisionsIssues rc s B).1.last_time_wg = s.last_time_wg := by
  intro B
  induction B with
  | nil => intro s; exact ⟨rfl, rfl⟩
  | cons issue rest ih =>
    intro s
    have hw := processDecisionsIssue_watermarks rc s issue
    unfold processDecisionsIssues
    cases hpi : processDecisionsIssue rc s issue with
    | mk s₁ r =>
      rw [hpi] at hw
      cases r with
      | some e => exact hw
      | none =>
        rcases ih s₁ with ⟨h₁, h₂⟩
        exact ⟨h₁.trans hw.1, h₂.trans hw.2⟩

/-- An out-of-order batch for the C4 counterexample: the last returned issue
is older than the first. -/
def batchUnsorted : List UpdatedIssue :=
  [{ id := "A", issue_number := 1, issue_title := "a", issue_labels := [],
     updated_at := "2020-01-02T00:00:00Z" },
   { id := "B", issue_number := 2, issue_title := "b", issue_labels := [],
     updated_at := "2020-01-01T00:00:00Z" }]

/-- A remote returning the out-of-order batch. -/
def remUnsorted : Remote :=
  { remBoom with updated_issues := fun _ _ _ _ => .ok batchUnsorted }

/-- A state whose WG watermark is ahead of the whole unsorted batch. -/
def sC4 : State := { State.new "2020-01-01" with last_time_wg := "2021-01-01T00:00:00Z" }

/-- C4 counterexample: the code sets the watermark to the `updatedAt` of the
*last* returned issue, not the maximum.  On a successful poll over an
out-of-order batch the new watermark ("2020-01-01…") is not the maximum
`updatedAt` observed ("2020-01-02…" is in the batch and exceeds it), and it
is strictly below the old watermark ("2021-01-01…"), so it decreased. -/
theorem c4_counterexample :
    ((Task.queryWGIssues "2021-01-01T00:00:00Z").run sC4 cfgW rcW remUnsorted).2 = none ∧
    ((Task.queryWGIssues "2021-01-01T00:00:00Z").run sC4 cfgW rcW remUnsorted).1.last_time_wg =
      "2020-01-01T00:00:00Z" ∧
    "2020-01-02T00:00:00Z" ∈ batchUnsorted.map (fun i => i.updated_at) ∧
    timeLe "2020-01-02T00:00:00Z" "2020-01-01T00:00:00Z" = false ∧
    timeLe sC4.last_time_wg
      ((Task.queryWGIssues "2021-01-01T00:00:00Z").run sC4 cfgW rcW remUnsorted).1.last_time_wg =
      false := by decide

/-- C4 amended: after a successful poll the watermark equals the `updatedAt`
of the *last* issue of the returned batch (unchanged when the batch is
empty).  When the batch is sorted non-decreasingly by `updatedAt` that value
is the maximum observed, and when additionally every returned `updatedAt` is
`≥` the current watermark (as the "updated since" contract implies), the
watermark never decreases.  Both poll tasks are covered: `QueryWGIssuesTask`
for `last_time_wg` and `QueryDecisionsIssuesTask` for `last_time_decisions`
(whose subsequent issue loop never touches the watermarks). -/
theorem c4_watermark_amended
    (config : Config) (rc : RepoConfig) (rem rem₂ : Remote)
    (s s' s₂ s₂' : State) (r r₂ : Option Err) (since since₂ : String)
    (issues issues₂ : List UpdatedIssue)
    (hrem : rem.updated_issues config.github_key config.wg_repo_owner config.wg_repo_name
      since = .ok issues)
    (hrun : (Task.queryWGIssues since).run s config rc rem = (s', r))
    (hsorted : issues.Pairwise (fun a b => timeLe a.updated_at b.updated_at = true))
    (hbound : ∀ i ∈ issues, timeLe s.last_time_wg i.updated_at = true)
    (hrem₂ : rem₂.updated_issues config.github_key config.decisions_repo_owner
      config.decisions_repo_name since₂ = .ok issues₂)
    (hrun₂ : (Task.queryDecisionsIssues since₂).run s₂ config rc rem₂ = (s₂', r₂))
    (hsorted₂ : issues₂.Pairwise (fun a b => timeLe a.updated_at b.updated_at = true))
    (hbound₂ : ∀ i ∈ issues₂, timeLe s₂.last_time_decisions i.updated_at = true) :
    r = none ∧
    (issues = [] → s'.last_time_wg = s.last_time_wg) ∧
    (∀ h : issues ≠ [], s'.last_time_wg = (issues.getLast h).updated_at ∧
      s'.last_time_wg ∈ issues.map (fun i => i.updated_at)) ∧
    (∀ i ∈ issues, timeLe i.updated_at s'.last_time_wg = true) ∧
    timeLe s.last_time_wg s'.last_time_wg = true ∧
    (issues₂ = [] → s₂'.last_time_decisions = s₂.last_time_decisions) ∧
    (∀ h : issues₂ ≠ [], s₂'.last_time_decisions = (issues₂.getLast h).updated_at ∧
      s₂'.last_time_decisions ∈ issues₂.map (fun i => i.updated_at)) ∧
    (∀ i ∈ issues₂, timeLe i.updated_at s₂'.last_time_decisions = true) ∧
    timeLe s₂.last_time_decisions s₂'.last_time_decisions = true := by
  simp only [Task.run, hrem, hrem₂] at hrun hrun₂
  rw [foldl_post_task] at hrun
  have hs₂' : (processDecisionsIssues rc
      (match issues₂.getLast? with
       | some issue => { s₂ with last_time_decisions := issue.updated_at }
       | none => s₂) issues₂).1 = s₂' := congrArg Prod.fst hrun₂
  have hwm₂ := processDecisionsIssues_watermarks rc issues₂
      (match issues₂.getLast? with
       | some issue => { s₂ with last_time_decisions := issue.updated_at }
       | none => s₂)
  rw [hs₂'] at hwm₂
  have hwgMain : r = none ∧
      (issues = [] → s'.last_time_wg = s.last_time_wg) ∧
      (∀ h : issues ≠ [], s'.last_time_wg = (issues.getLast h).updated_at) := by
    cases hi : issues with
    | nil =>
      subst hi
      simp only [List.getLast?_nil] at hrun
      injection hrun with hs hr
      exact ⟨hr.symm, fun _ => by rw [← hs], fun h => absurd rfl h⟩
    | cons a t =>
      subst hi
      rw [List.getLast?_eq_getLast _ (by simp)] at hrun
      injection hrun with hs hr
      exact ⟨hr.symm, fun h => absurd h (by simp), fun h => by rw [← hs]⟩
  have hdecMain :
      (issues₂ = [] → s₂'.last_time_decisions = s₂.last_time_decisions) ∧
      (∀ h : issues₂ ≠ [], s₂'.last_time_decisions = (issues₂.getLast h).updated_at) := by
    cases hi₂ : issues₂ with
    | nil =>
      subst hi₂
      simp only [List.getLast?_nil] at hwm₂
      exact ⟨fun _ => hwm₂.1, fun h => absurd rfl h⟩
    | cons a₂ t₂ =>
      subst hi₂
      rw [List.getLast?_eq_getLast _ (by simp)] at hwm₂
      exact ⟨fun h => absurd h (by simp), fun h => hwm₂.1⟩
  refine ⟨hwgMain.1, hwgMain.2.1, ?_, ?_, ?_, hdecMain.1, ?_, ?_, ?_⟩
  · intro h
    exact ⟨hwgMain.2.2 h, by
      rw [hwgMain.2.2 h]
      exact List.mem_map_of_mem _ (List.getLast_mem h)⟩
  · intro i hi
    have hne : issues ≠ [] := by rintro rfl; cases hi
    rw [hwgMain.2.2 hne]
    exact pairwise_timeLe_getLast _ hne hsorted i hi
  · by_cases hne : issues = []
    · rw [hwgMain.2.1 hne]; exact timeLe_refl _
    · rw [hwgMain.2.2 hne]; exact hbound _ (List.getLast_mem hne)
  · intro h
    exact ⟨hdecMain.2 h, by
      rw [hdecMain.2 h]
      exact List.mem_map_of_mem _ (List.getLast_mem h)⟩
  · intro i hi
    have hne : issues₂ ≠ [] := by rintro rfl; cases hi
    rw [hdecMain.2 hne]
    exact pairwise_timeLe_getLast _ hne hsorted₂ i hi
  · by_cases hne : issues₂ = []
    · rw [hdecMain.1 hne]; exact timeLe_refl _
    · rw [hdecMain.2 hne]; exact hbound₂ _ (List.getLast_mem hne)

/-- A sorted batch whose timestamps all exceed the fresh watermarks. -/
def batchSorted : List UpdatedIssue :=
  [{ id := "B", issue_number := 2, issue_title := "b", issue_labels := [],
     updated_at := "2020-01-02T00:00:00Z" },
   { id := "A", issue_number := 3, issue_title := "a", issue_labels := [],
     updated_at := "2020-01-03T00:00:00Z" }]

/-- A remote returning the sorted batch for every issue poll. -/
def remSorted : Remote :=
  { remBoom with updated_issues := fun _ _ _ _ => .ok batchSorted }

/-- The post-run state of the C4 witness WG poll. -/
def sWit4 : State :=
  { State.new "2020-01-01" with
      last_time_wg := "2020-01-03T00:00:00Z"
      posted_tasks := [Task.queryWGIssueComments 2 "b" [] "2020-01-01T00:00:00Z",
        Task.queryWGIssueComments 3 "a" [] "2020-01-01T00:00:00Z"] }

/-- The post-run state of the C4 witness decisions poll. -/
def sWit4d : State :=
  { State.new "2020-01-01" with last_time_decisions := "2020-01-03T00:00:00Z" }

/-- C4 witness: on the sorted batch both watermarks advance to the last
(maximal) `updatedAt`, exercising `c4_watermark_amended` with every
hypothesis discharged. -/
theorem c4_witness :
    (none : Option Err) = none ∧
    (batchSorted = [] → sWit4.last_time_wg = (State.new "2020-01-01").last_time_wg) ∧
    (∀ h : batchSorted ≠ [], sWit4.last_time_wg = (batchSorted.getLast h).updated_at ∧
      sWit4.last_time_wg ∈ batchSorted.map (fun i => i.updated_at)) ∧
    (∀ i ∈ batchSorted, timeLe i.updated_at sWit4.last_time_wg = true) ∧
    timeLe (State.new "2020-01-01").last_time_wg sWit4.last_time_wg = true ∧
    (batchSorted = [] → sWit4d.last_time_decisions =
      (State.new "2020-01-01").last_time_decisions) ∧
    (∀ h : batchSorted ≠ [], sWit4d.last_time_decisions =
        (batchSorted.getLast h).updated_at ∧
      sWit4d.last_time_decisions ∈ batchSorted.map (fun i => i.updated_at)) ∧
    (∀ i ∈ batchSorted, timeLe i.updated_at sWit4d.last_time_decisions = true) ∧
    timeLe (State.new "2020-01-01").last_time_decisions sWit4d.last_time_decisions = true :=
  c4_watermark_amended cfgW rcW remSorted remSorted
    (State.new "2020-01-01") sWit4 (State.new "2020-01-01") sWit4d
    none none "2020-01-01T00:00:00Z" "2020-01-01T00:00:00Z" batchSorted batchSorted
    (by decide) (by decide) (by decide) (by decide)
    (by decide) (by decide) (by decide) (by decide)

/-- One decision-issue iteration: the ledger only grows; if `n` is already
in the ledger no `FileBug` for `n` is staged; at most one is staged in any
case; and staging one marks `n` handled. -/
theorem processDecisionsIssue_count (rc : RepoConfig) (s : State) (issue : UpdatedIssue)
    (n : Int) :
    s.handled_decisions_issues ⊆
      (processDecisionsIssue rc s issue).1.handled_decisions_issues ∧
    (n ∈ s.handled_decisions_issues →
      countFileBug n (processDecisionsIssue rc s issue).1.posted_tasks =
        countFileBug n s.posted_tasks) ∧
    countFileBug n (processDecisionsIssue rc s issue).1.posted_tasks ≤
      countFileBug n s.posted_tasks +
        (if n ∈ s.handled_decisions_issues then 0 else 1) ∧
    (countFileBug n (processDecisionsIssue rc s issue).1.posted_tasks >
        countFileBug n s.posted_tasks →
      n ∈ (processDecisionsIssue rc s issue).1.handled_decisions_issues) := by
  by_cases h1 : issue.issue_number ∈ s.handled_decisions_issues
  · simp [processDecisionsIssue, h1, List.Subset.refl]
  · cases hany : issue.issue_labels.any (fun label => label.name == "bug") with
    | false => simp [processDecisionsIssue, h1, hany, List.Subset.refl]
    | true =>
      cases hres : resolveProductComponent rc (decisionIssueComponents rc issue.issue_labels) with
      | error e =>
        have hstate : processDecisionsIssue rc s issue =
            ({ s with handled_decisions_issues :=
                setInsert s.handled_decisions_issues issue.issue_number }, some e) := by
          simp [processDecisionsIssue, h1, hany, hres]
        rw [hstate]
        dsimp only
        refine ⟨subset_setInsert _ _, fun _ => rfl, ?_, fun h => absurd h (lt_irrefl _)⟩
        split <;> omega
      | ok pq =>
        obtain ⟨p, q⟩ := pq
        have hstate : processDecisionsIssue rc s issue =
            ({ s with
                handled_decisions_issues :=
                  setInsert s.handled_decisions_issues issue.issue_number
                posted_tasks := s.posted_tasks ++
                  [Task.fileBugForDecisionsIssue p q issue.issue_number issue.id,
                   Task.removeDecisionsIssueBugLabel issue.id,
                   Task.closeIssue issue.id] }, none) := by
          simp [processDecisionsIssue, h1, hany, hres, State.post_task, List.append_assoc]
        rw [hstate]
        dsimp only
        by_cases hnum : issue.issue_number = n
        · subst hnum
          have hone : countFileBug issue.issue_number (s.posted_tasks ++
              [Task.fileBugForDecisionsIssue p q issue.issue_number issue.id,
               Task.removeDecisionsIssueBugLabel issue.id, Task.closeIssue issue.id]) =
              countFileBug issue.issue_number s.posted_tasks + 1 := by
            simp [countFileBug, List.countP_append, List.countP_cons, isFileBugForIssue]
          refine ⟨subset_setInsert _ _, fun hmem => absurd hmem h1, ?_,
            fun _ => mem_setInsert_self _ _⟩
          rw [hone, if_neg h1]
        · have hzero : countFileBug n (s.posted_tasks ++
              [Task.fileBugForDecisionsIssue p q issue.issue_number issue.id,
               Task.removeDecisionsIssueBugLabel issue.id, Task.closeIssue issue.id]) =
              countFileBug n s.posted_tasks := by
            simp [countFileBug, List.countP_append, List.countP_cons, isFileBugForIssue, hnum]
          refine ⟨subset_setInsert _ _, fun _ => hzero, ?_, ?_⟩
          · rw [hzero]; split <;> omega
          · rw [hzero]; intro h; exact absurd h (lt_irrefl _)

/-- The whole decision-issue loop obeys the same ledger/staging bounds. -/
theorem processDecisionsIssues_count (rc : RepoConfig) (n : Int) :
    ∀ (B : List UpdatedIssue) (s : State),
      s.handled_decisions_issues ⊆
        (processDecisionsIssues rc s B).1.handled_decisions_issues ∧
      (n ∈ s.handled_decisions_issues →
        countFileBug n (processDecisionsIssues rc s B).1.posted_tasks =
          countFileBug n s.posted_tasks) ∧
      countFileBug n (processDecisionsIssues rc s B).1.posted_tasks ≤
        countFileBug n s.posted_tasks +
          (if n ∈ s.handled_decisions_issues then 0 else 1) ∧
      (countFileBug n (processDecisionsIssues rc s B).1.posted_tasks >
          countFileBug n s.posted_tasks →
        n ∈ (processDecisionsIssues rc s B).1.handled_decisions_issues) := by
  intro B
  induction B with
  | nil =>
    intro s
    have h0 : processDecisionsIssues rc s [] = (s, none) := rfl
    rw [h0]
    dsimp only
    refine ⟨List.Subset.refl _, fun _ => rfl, ?_, fun h => absurd h (lt_irrefl _)⟩
    split <;> omega
  | cons issue rest ih =>
    intro s
    have hper := processDecisionsIssue_count rc s issue n
    unfold processDecisionsIssues
    cases hpi : processDecisionsIssue rc s issue with
    | mk s₁ r =>
      rw [hpi] at hper
      dsimp only at hper
      obtain ⟨hsub₁, heq₁, hle₁, hinc₁⟩ := hper
      cases r with
      | some e => exact ⟨hsub₁, heq₁, hle₁, hinc₁⟩
      | none =>
        dsimp only
        obtain ⟨hsub₂, heq₂, hle₂, hinc₂⟩ := ih s₁
        refine ⟨hsub₁.trans hsub₂, ?_, ?_, ?_⟩
        · intro hmem
          rw [heq₂ (hsub₁ hmem), heq₁ hmem]
        · by_cases hmem : n ∈ s.handled_decisions_issues
          · rw [heq₂ (hsub₁ hmem), heq₁ hmem]
            split <;> omega
          · by_cases hmem₁ : n ∈ s₁.handled_decisions_issues
            · rw [heq₂ hmem₁]
              simp only [if_neg hmem] at hle₁ ⊢
              omega
            · have hnoinc : ¬ countFileBug n s₁.posted_tasks >
                  countFileBug n s.posted_tasks := fun h => hmem₁ (hinc₁ h)
              simp only [if_neg hmem]
              simp only [if_neg hmem₁] at hle₂
              omega
        · intro hgt
          by_cases hgt₂ : countFileBug n (processDecisionsIssues rc s₁ rest).1.posted_tasks >
              countFileBug n s₁.posted_tasks
          · exact hinc₂ hgt₂
          · have : countFileBug n s₁.posted_tasks > countFileBug n s.posted_tasks := by omega
            exact hsub₂ (hinc₁ this)

/-- With `n` already in the ledger, batch entries numbered `n` contribute
nothing: the loop result is the same as on the batch with them removed. -/
theorem processDecisionsIssues_skip (rc : RepoConfig) (n : Int) :
    ∀ (B : List UpdatedIssue) (s : State), n ∈ s.handled_decisions_issues →
      processDecisionsIssues rc s B =
        processDecisionsIssues rc s (B.filter (fun i => !(i.issue_number == n))) := by
  intro B
  induction B with
  | nil => intro s _; rfl
  | cons issue rest ih =>
    intro s hn
    by_cases hnum : issue.issue_number = n
    · have hskip : processDecisionsIssue rc s issue = (s, none) := by
        simp [processDecisionsIssue, hnum, hn]
      have hfilter : (issue :: rest).filter (fun i => !(i.issue_number == n)) =
          rest.filter (fun i => !(i.issue_number == n)) := by
        simp [List.filter_cons, hnum]
      rw [hfilter]
      show (match processDecisionsIssue rc s issue with
        | (s', some e) => (s', some e)
        | (s', none) => processDecisionsIssues rc s' rest) = _
      rw [hskip]
      exact ih s hn
    · have hfilter : (issue :: rest).filter (fun i => !(i.issue_number == n)) =
          issue :: rest.filter (fun i => !(i.issue_number == n)) := by
        simp [List.filter_cons, hnum]
      rw [hfilter]
      show (match processDecisionsIssue rc s issue with
        | (s', some e) => (s', some e)
        | (s', none) => processDecisionsIssues rc s' rest) =
        (match processDecisionsIssue rc s issue with
        | (s', some e) => (s', some e)
        | (s', none) => processDecisionsIssues rc s'
            (rest.filter (fun i => !(i.issue_number == n))))
      have hsub := (processDecisionsIssue_count rc s issue n).1
      cases hpi : processDecisionsIssue rc s issue with
      | mk s₁ r =>
        rw [hpi] at hsub
        cases r with
        | some e => rfl
        | none => exact ih s₁ (hsub hn)

/-- Folding a guarded `post_task` appends the tasks of the kept elements. -/
theorem foldl_post_task_filter {α : Type} (p : α → Bool) (f : α → Task) (xs : List α)
    (s : State) :
    xs.foldl (fun st x => if p x then st.post_task (f x) else st) s =
      { s with posted_tasks := s.posted_tasks ++ (xs.filter p).map f } := by
  induction xs generalizing s with
  | nil => simp
  | cons x xs ih =>
    rw [List.foldl_cons]
    by_cases hp : p x
    · rw [if_pos hp, ih]
      simp [State.post_task, List.filter_cons, hp, List.append_assoc]
    · rw [if_neg hp, ih]
      simp [List.filter_cons, hp]

/-- Frame argument: a step that neither touches the decisions ledger nor
stages a `FileBug` for `n` satisfies all four counting conclusions. -/
theorem countFrame (n : Int) (s s' : State)
    (hh : s'.handled_decisions_issues = s.handled_decisions_issues)
    (hc : countFileBug n s'.posted_tasks = countFileBug n s.posted_tasks) :
    s.handled_decisions_issues ⊆ s'.handled_decisions_issues ∧
    (n ∈ s.handled_decisions_issues →
      countFileBug n s'.posted_tasks = countFileBug n s.posted_tasks) ∧
    countFileBug n s'.posted_tasks ≤
      countFileBug n s.posted_tasks + (if n ∈ s.handled_decisions_issues then 0 else 1) ∧
    (countFileBug n s'.posted_tasks > countFileBug n s.posted_tasks →
      n ∈ s'.handled_decisions_issues) := by
  refine ⟨by rw [hh]; exact List.Subset.refl _, fun _ => hc, by rw [hc]; split <;> omega,
    fun h => ?_⟩
  rw [hc] at h
  exact absurd h (lt_irrefl _)

/-- Every task execution: the decisions ledger only grows; no `FileBug` for
`n` is staged when `n` is already in the ledger; at most one is staged in
any case; and staging one implies `n` has been marked handled. -/
theorem taskRun_count (t : Task) (s : State) (config : Config) (rc : RepoConfig)
    (rem : Remote) (n : Int) :
    s.handled_decisions_issues ⊆ (t.run s config rc rem).1.handled_decisions_issues ∧
    (n ∈ s.handled_decisions_issues →
      countFileBug n (t.run s config rc rem).1.posted_tasks =
        countFileBug n s.posted_tasks) ∧
    countFileBug n (t.run s config rc rem).1.posted_tasks ≤
      countFileBug n s.posted_tasks + (if n ∈ s.handled_decisions_issues then 0 else 1) ∧
    (countFileBug n (t.run s config rc rem).1.posted_tasks > countFileBug n s.posted_tasks →
      n ∈ (t.run s config rc rem).1.handled_decisions_issues) := by
  cases t with
  | queryWGIssues since =>
    cases hq : rem.updated_issues config.github_key config.wg_repo_owner
        config.wg_repo_name since with
    | error e =>
      have hrunEq : Task.run (.queryWGIssues since) s config rc rem = (s, some e) := by
        simp [Task.run, hq]
      rw [hrunEq]
      exact countFrame n s s rfl rfl
    | ok issues =>
      simp only [Task.run, hq]
      rw [foldl_post_task]
      cases hl : issues.getLast? with
      | none =>
        refine countFrame n s _ rfl ?_
        simp [countFileBug, List.countP_append, List.countP_map, Function.comp_def,
          isFileBugForIssue]
      | some lastI =>
        refine countFrame n s _ rfl ?_
        simp [countFileBug, List.countP_append, List.countP_map, Function.comp_def,
          isFileBugForIssue]
  | queryDecisionsIssues since =>
    cases hq : rem.updated_issues config.github_key config.decisions_repo_owner
        config.decisions_repo_name since with
    | error e =>
      have hrunEq : Task.run (.queryDecisionsIssues since) s config rc rem = (s, some e) := by
        simp [Task.run, hq]
      rw [hrunEq]
      exact countFrame n s s rfl rfl
    | ok issues =>
      simp only [Task.run, hq]
      cases hl : issues.getLast? with
      | none => exact processDecisionsIssues_count rc n issues s
      | some lastI =>
        exact processDecisionsIssues_count rc n issues
          { s with last_time_decisions := lastI.updated_at }
  | queryWGIssueComments number issue_title issue_labels since =>
    cases hq : rem.issue_comments config.github_key config.wg_repo_owner
        config.wg_repo_name number with
    | error e =>
      have hrunEq : Task.run (.queryWGIssueComments number issue_title issue_labels since)
          s config rc rem = (s, some e) := by
        simp [Task.run, hq]
      rw [hrunEq]
      exact countFrame n s s rfl rfl
    | ok comments =>
      simp only [Task.run, hq]
      rw [foldl_post_task_filter]
      refine countFrame n s _ rfl ?_
      simp [countFileBug, List.countP_append, List.countP_map, Function.comp_def,
        isFileBugForIssue]
  | processWGComment issue_number issue_title issue_labels url body_text =>
    rw [processWGComment_run_eq]
    by_cases hcond : resolutionsOf body_text = [] ∨ url ∈ s.handled_wg_comments
    · rw [if_pos hcond]
      exact countFrame n s s rfl rfl
    · rw [if_neg hcond]
      refine countFrame n s _ rfl ?_
      simp [countFileBug, List.countP_append, List.countP_map, List.countP_cons,
        Function.comp_def, isFileBugForIssue]
  | queryDecisionsKnownLabels =>
    cases hq : rem.known_labels config.github_key config.decisions_repo_owner
        config.decisions_repo_name with
    | error e =>
      have hrunEq : Task.run .queryDecisionsKnownLabels s config rc rem = (s, some e) := by
        simp [Task.run, hq]
      rw [hrunEq]
      exact countFrame n s s rfl rfl
    | ok result =>
      simp only [Task.run, hq]
      refine ⟨List.Subset.refl _, fun _ => trivial, ?_, fun h => absurd h (lt_irrefl _)⟩
      split <;> omega
  | ensureLabel name color =>
    cases hk : s.known_labels with
    | none =>
      simp only [Task.run, hk]
      refine countFrame n s _ rfl ?_
      simp [State.post_task, countFileBug, List.countP_append, List.countP_cons,
        isFileBugForIssue, List.append_assoc]
    | some known =>
      cases hd : s.decisions_repo_id with
      | none =>
        simp only [Task.run, hk, hd]
        refine countFrame n s _ rfl ?_
        simp [State.post_task, countFileBug, List.countP_append, List.countP_cons,
          isFileBugForIssue, List.append_assoc]
      | some rid =>
        by_cases hlk : (List.lookup name known).isSome
        · have hrunEq : Task.run (.ensureLabel name color) s config rc rem = (s, none) := by
            simp [Task.run, hk, hd, hlk]
          rw [hrunEq]
          exact countFrame n s s rfl rfl
        · cases hcl : rem.create_label config.github_key rid name color with
          | error e =>
            have hrunEq : Task.run (.ensureLabel name color) s config rc rem = (s, some e) := by
              simp [Task.run, hk, hd, hlk, hcl]
            rw [hrunEq]
            exact countFrame n s s rfl rfl
          | ok lid =>
            simp only [Task.run, hk, hd, if_neg hlk, hcl]
            refine ⟨List.Subset.refl _, fun _ => trivial, ?_, fun h => absurd h (lt_irrefl _)⟩
            split <;> omega
  | queryDecisionsRepoID =>
    cases hq : rem.repo_id config.github_key config.decisions_repo_owner
        config.decisions_repo_name with
    | error e =>
      have hrunEq : Task.run .queryDecisionsRepoID s config rc rem = (s, some e) := by
        simp [Task.run, hq]
      rw [hrunEq]
      exact countFrame n s s rfl rfl
    | ok o =>
      cases o with
      | none =>
        have hrunEq : Task.run .queryDecisionsRepoID s config rc rem =
            (s, some { msg := "repository not found" }) := by
          simp [Task.run, hq]
        rw [hrunEq]
        exact countFrame n s s rfl rfl
      | some rid =>
        simp only [Task.run, hq]
        refine ⟨List.Subset.refl _, fun _ => trivial, ?_, fun h => absurd h (lt_irrefl _)⟩
        split <;> omega
  | fileIssue issue_number issue_title issue_labels comment_url resolutions =>
    cases hk : s.known_labels with
    | none =>
      simp only [Task.run, hk]
      refine countFrame n s _ rfl ?_
      simp [State.post_task, countFileBug, List.countP_append, List.countP_cons,
        isFileBugForIssue, List.append_assoc]
    | some known =>
      cases hd : s.decisions_repo_id with
      | none =>
        simp only [Task.run, hk, hd]
        refine countFrame n s _ rfl ?_
        simp [State.post_task, countFileBug, List.countP_append, List.countP_cons,
          isFileBugForIssue, List.append_assoc]
      | some rid =>
        cases hci : rem.create_issue config.github_key rid issue_title
            (some (fileIssueBody config issue_number issue_title comment_url resolutions))
            (some (issue_labels.filterMap (fun x => List.lookup x known))) with
        | error e =>
          have hrunEq : Task.run
              (.fileIssue issue_number issue_title issue_labels comment_url resolutions)
              s config rc rem = (s, some e) := by
            simp [Task.run, hk, hd, hci]
          rw [hrunEq]
          exact countFrame n s s rfl rfl
        | ok u =>
          have hrunEq : Task.run
              (.fileIssue issue_number issue_title issue_labels comment_url resolutions)
              s config rc rem = (s, none) := by
            simp [Task.run, hk, hd, hci]
          rw [hrunEq]
          exact countFrame n s s rfl rfl
  | removeDecisionsIssueBugLabel issue_id =>
    cases hk : s.known_labels with
    | none =>
      simp only [Task.run, hk]
      refine countFrame n s _ rfl ?_
      simp [State.post_task, countFileBug, List.countP_append, List.countP_cons,
        isFileBugForIssue, List.append_assoc]
    | some known =>
      cases hlk : List.lookup "bug" known with
      | none =>
        have hrunEq : Task.run (.removeDecisionsIssueBugLabel issue_id) s config rc rem =
            (s, some { msg := "decisions repo missing 'bug' label" }) := by
          simp [Task.run, hk, hlk]
        rw [hrunEq]
        exact countFrame n s s rfl rfl
      | some lid =>
        cases hrl : rem.remove_labels config.github_key issue_id [lid] with
        | error e =>
          have hrunEq : Task.run (.removeDecisionsIssueBugLabel issue_id) s config rc rem =
              (s, some e) := by
            simp [Task.run, hk, hlk, hrl]
          rw [hrunEq]
          exact countFrame n s s rfl rfl
        | ok u =>
          have hrunEq : Task.run (.removeDecisionsIssueBugLabel issue_id) s config rc rem =
              (s, none) := by
            simp [Task.run, hk, hlk, hrl]
          rw [hrunEq]
          exact countFrame n s s rfl rfl
  | closeIssue issue_id =>
    cases hq : rem.close_issue config.github_key issue_id with
    | error e =>
      have hrunEq : Task.run (.closeIssue issue_id) s config rc rem = (s, some e) := by
        simp [Task.run, hq]
      rw [hrunEq]
      exact countFrame n s s rfl rfl
    | ok u =>
      have hrunEq : Task.run (.closeIssue issue_id) s config rc rem = (s, none) := by
        simp [Task.run, hq]
      rw [hrunEq]
      exact countFrame n s s rfl rfl
  | fileBugForDecisionsIssue product component issue_number issue_id =>
    cases hq : rem.issue_title_and_body config.github_key config.decisions_repo_owner
        config.decisions_repo_name issue_number with
    | error e =>
      have hrunEq : Task.run (.fileBugForDecisionsIssue product component issue_number issue_id)
          s config rc rem = (s, some e) := by
        simp [Task.run, hq]
      rw [hrunEq]
      exact countFrame n s s rfl rfl
    | ok tb =>
      obtain ⟨title, body⟩ := tb
      simp only [Task.run, hq]
      refine countFrame n s _ rfl ?_
      simp [State.post_task, countFileBug, List.countP_append, List.countP_cons,
        isFileBugForIssue]
  | fileBugForDecisionsIssueWithDetails product component summary description urls
      issue_number issue_id =>
    cases hq : rem.file_bug config.bugzilla_key product component summary description urls with
    | error e =>
      have hrunEq : Task.run (.fileBugForDecisionsIssueWithDetails product component summary
          description urls issue_number issue_id) s config rc rem = (s, some e) := by
        simp [Task.run, hq]
      rw [hrunEq]
      exact countFrame n s s rfl rfl
    | ok url =>
      simp only [Task.run, hq]
      refine countFrame n s _ rfl ?_
      simp [State.post_task, countFileBug, List.countP_append, List.countP_cons,
        isFileBugForIssue]
  | addIssueComment issue_id body =>
    cases hq : rem.add_issue_comment config.github_key issue_id body with
    | error e =>
      have hrunEq : Task.run (.addIssueComment issue_id body) s config rc rem = (s, some e) := by
        simp [Task.run, hq]
      rw [hrunEq]
      exact countFrame n s s rfl rfl
    | ok u =>
      have hrunEq : Task.run (.addIssueComment issue_id body) s config rc rem = (s, none) := by
        simp [Task.run, hq]
      rw [hrunEq]
      exact countFrame n s s rfl rfl

/-- The staging merge clears the staging list, leaves the ledger alone, and
prepends the staged tasks to the queue. -/
theorem mergePosted_fields (s : State) :
    (mergePosted s).posted_tasks = [] ∧
    (mergePosted s).handled_decisions_issues = s.handled_decisions_issues ∧
    (mergePosted s).tasks = s.posted_tasks ++ s.tasks := by
  by_cases hp : s.posted_tasks = []
  · simp [mergePosted, hp]
  · simp [mergePosted, List.isEmpty_iff, hp]

/-- One driver step: after `iterate`, the snapshot's staging list holds
exactly the tasks staged by this step, so it carries no `FileBug` for an
already-handled `n`, at most one in any case, and one only with `n` newly in
the (monotone) ledger. -/
theorem iterate_count (s : State) (config : Config) (rc : RepoConfig) (rem : Remote)
    (n : Int) :
    s.handled_decisions_issues ⊆ (s.iterate config rc rem).1.handled_decisions_issues ∧
    countFileBug n (s.iterate config rc rem).1.posted_tasks ≤
      (if n ∈ s.handled_decisions_issues then 0 else 1) ∧
    (n ∈ s.handled_decisions_issues →
      countFileBug n (s.iterate config rc rem).1.posted_tasks = 0) ∧
    (countFileBug n (s.iterate config rc rem).1.posted_tasks > 0 →
      n ∈ (s.iterate config rc rem).1.handled_decisions_issues) := by
  obtain ⟨hmp, hmh, _⟩ := mergePosted_fields s
  cases hq : (mergePosted s).tasks with
  | nil =>
    have he : s.iterate config rc rem = (mergePosted s, none) := by
      simp only [State.iterate, hq]
    rw [he]
    dsimp only
    rw [hmp, hmh]
    exact ⟨List.Subset.refl _, by simp [countFileBug], fun _ => rfl, by simp [countFileBug]⟩
  | cons t rest =>
    have hrc := taskRun_count t { mergePosted s with tasks := rest } config rc rem n
    cases hrun : Task.run t { mergePosted s with tasks := rest } config rc rem with
    | mk s₁ r =>
      rw [hrun] at hrc
      dsimp only at hrc
      rw [hmp, hmh] at hrc
      have hz : countFileBug n ([] : List Task) = 0 := rfl
      rw [hz, Nat.zero_add] at hrc
      obtain ⟨h1, h2, h3, h4⟩ := hrc
      cases r with
      | some e =>
        have he : s.iterate config rc rem = ({ s₁ with tasks := t :: s₁.tasks }, some e) := by
          simp only [State.iterate, hq, hrun]
        rw [he]
        exact ⟨h1, h3, h2, h4⟩
      | none =>
        have he : s.iterate config rc rem = (s₁, none) := by
          simp only [State.iterate, hq, hrun]
        rw [he]
        exact ⟨h1, h3, h2, h4⟩

/-- Across a whole driver run, a `FileBug` for `n` is staged at most once,
and never when `n` starts in the ledger. -/
theorem runLoop_total (config : Config) (rc : RepoConfig) :
    ∀ (fuel : Nat) (rems : Nat → Remote) (s : State) (n : Int),
      (n ∈ s.handled_decisions_issues →
        totalStaged n (runLoop config rc rems fuel s).1 = 0) ∧
      totalStaged n (runLoop config rc rems fuel s).1 ≤ 1 := by
  intro fuel
  induction fuel with
  | zero =>
    intro rems s n
    simp [runLoop, totalStaged]
  | succ fuel ih =>
    intro rems s n
    have hstep := iterate_count s config rc (rems 0) n
    cases hit : s.iterate config rc (rems 0) with
    | mk s₁ res =>
      rw [hit] at hstep
      dsimp only at hstep
      obtain ⟨hsub, hle, hzero, hinc⟩ := hstep
      cases res with
      | some e =>
        simp only [runLoop, hit, totalStaged, List.map_cons, List.map_nil, List.sum_cons,
          List.sum_nil]
        constructor
        · intro hmem
          rw [hzero hmem]
          rfl
        · by_cases hm : n ∈ s.handled_decisions_issues
          · rw [if_pos hm] at hle; omega
          · rw [if_neg hm] at hle; omega
      | none =>
        obtain ⟨ih1, ih2⟩ := ih (fun k => rems (k + 1)) s₁ n
        simp only [totalStaged] at ih1 ih2
        by_cases hfin : s₁.is_finished
        · simp only [runLoop, hit, hfin, if_true, totalStaged, List.map_cons, List.map_nil,
            List.sum_cons, List.sum_nil]
          constructor
          · intro hmem
            rw [hzero hmem]
            rfl
          · by_cases hm : n ∈ s.handled_decisions_issues
            · rw [if_pos hm] at hle; omega
            · rw [if_neg hm] at hle; omega
        · simp only [runLoop, hit, hfin, Bool.false_eq_true, if_false, totalStaged,
            List.map_cons, List.sum_cons]
          constructor
          · intro hmem
            rw [hzero hmem, ih1 (hsub hmem)]
          · by_cases hm : n ∈ s.handled_decisions_issues
            · rw [if_pos hm] at hle
              rw [ih1 (hsub hm)]
              omega
            · rw [if_neg hm] at hle
              by_cases hc : countFileBug n s₁.posted_tasks > 0
              · rw [ih1 (hinc hc)]
                omega
              · omega

/-- C3: once `n` is in `handled_decisions_issues`, batch entries numbered `n`
contribute nothing to a `QueryDecisionsIssuesTask` execution (the loop result
equals the one on the batch with them removed); every task execution only
grows the ledger; and across a whole driver run the `FileBug` (and with it
the `RemoveBugLabel`/`CloseIssue` it is staged with) for `n` is staged at
most once — never, when `n` starts handled. -/
theorem c3_decisions_ledger_idempotent
    (config : Config) (rc : RepoConfig) (rem : Remote) (rems rems₂ : Nat → Remote)
    (s sAny : State) (u : Task) (n : Int) (B : List UpdatedIssue) (fuel fuel₂ : Nat)
    (hn : n ∈ s.handled_decisions_issues) :
    processDecisionsIssues rc s B =
      processDecisionsIssues rc s (B.filter (fun i => !(i.issue_number == n))) ∧
    sAny.handled_decisions_issues ⊆
      (u.run sAny config rc rem).1.handled_decisions_issues ∧
    totalStaged n (runLoop config rc rems fuel s).1 = 0 ∧
    totalStaged n (runLoop config rc rems₂ fuel₂ sAny).1 ≤ 1 :=
  ⟨processDecisionsIssues_skip rc n B s hn,
   (taskRun_count u sAny config rc rem n).1,
   (runLoop_total config rc fuel rems s n).1 hn,
   (runLoop_total config rc fuel₂ rems₂ sAny n).2⟩

/-- A decision issue numbered 5 carrying the "bug" label. -/
def issue5 : UpdatedIssue where
  id := "I5"
  issue_number := 5
  issue_title := "T5"
  issue_labels := [{ name := "bug", color := "c" }]
  updated_at := "2020-02-01T00:00:00Z"

/-- A remote whose issue polls return only `issue5`. -/
def remDec5 : Remote :=
  { remBoom with updated_issues := fun _ _ _ _ => .ok [issue5] }

/-- A state about to poll decisions with issue 5 already handled. -/
def sW3 : State :=
  { State.new "2020-01-01" with
      tasks := [Task.queryDecisionsIssues "t"]
      handled_decisions_issues := [5] }

/-- The same poll state with an empty ledger. -/
def sAnyW : State :=
  { State.new "2020-01-01" with tasks := [Task.queryDecisionsIssues "t"] }

/-- C3 witness: with issue 5 already in the ledger the batch entry for 5 is
inert and a full run stages nothing for it; from the empty ledger a full run
stages its `FileBug` at most once. -/
theorem c3_witness :
    processDecisionsIssues rcW sW3 [issue5] =
      processDecisionsIssues rcW sW3 ([issue5].filter (fun i => !(i.issue_number == 5))) ∧
    sAnyW.handled_decisions_issues ⊆
      ((Task.queryDecisionsIssues "t").run sAnyW cfgW rcW remDec5).1.handled_decisions_issues ∧
    totalStaged 5 (runLoop cfgW rcW (fun _ => remDec5) 3 sW3).1 = 0 ∧
    totalStaged 5 (runLoop cfgW rcW (fun _ => remDec5) 3 sAnyW).1 ≤ 1 :=
  c3_decisions_ledger_idempotent cfgW rcW remDec5 (fun _ => remDec5) (fun _ => remDec5)
    sW3 sAnyW (Task.queryDecisionsIssues "t") 5 [issue5] 3 3 (by decide)

/-! Round-trip correctness of the snapshot codec (C5). -/

/-- A decimal digit char decodes back to its value. -/
theorem digitVal_digitChar {d : Nat} (h : d < 10) : digitVal (Nat.digitChar d) = d := by
  interval_cases d <;> rfl

/-- `Nat.digitChar` of a digit is a digit char. -/
theorem isDigit_digitChar {d : Nat} (h : d < 10) : (Nat.digitChar d).isDigit = true := by
  interval_cases d <;> rfl

/-- The decimal printer is correct: its output reads back as the number, is
all digits, and is non-empty. -/
theorem natToCharsGo_spec :
    ∀ (fuel n : Nat), n < fuel →
      charsToNat (natToCharsGo fuel n) = n ∧
      (∀ c ∈ natToCharsGo fuel n, c.isDigit = true) ∧
      natToCharsGo fuel n ≠ [] := by
  intro fuel
  induction fuel with
  | zero => intro n h; exact absurd h (Nat.not_lt_zero n)
  | succ fuel ih =>
    intro n h
    by_cases h10 : n < 10
    · simp only [natToCharsGo, if_pos h10]
      refine ⟨?_, ?_, by simp⟩
      · simp [charsToNat, digitVal_digitChar h10]
      · intro c hc
        simp only [List.mem_singleton] at hc
        subst hc
        exact isDigit_digitChar h10
    · have hdiv : n / 10 < fuel := by
        have h1 : n / 10 < n := Nat.div_lt_self (by omega) (by norm_num)
        omega
      obtain ⟨ih1, ih2, ih3⟩ := ih (n / 10) hdiv
      simp only [natToCharsGo, if_neg h10]
      refine ⟨?_, ?_, by simp⟩
      · show List.foldl (fun a c => a * 10 + digitVal c) 0
            (natToCharsGo fuel (n / 10) ++ [Nat.digitChar (n % 10)]) = n
        rw [List.foldl_append]
        simp only [List.foldl_cons, List.foldl_nil]
        have hmod : digitVal (Nat.digitChar (n % 10)) = n % 10 :=
          digitVal_digitChar (Nat.mod_lt n (by norm_num))
        have hfold : List.foldl (fun a c => a * 10 + digitVal c) 0
            (natToCharsGo fuel (n / 10)) = n / 10 := ih1
        rw [hfold, hmod]
        omega
      · intro c hc
        rw [List.mem_append] at hc
        rcases hc with hc | hc
        · exact ih2 c hc
        · simp only [List.mem_singleton] at hc
          subst hc
          exact isDigit_digitChar (Nat.mod_lt n (by norm_num))

/-- Scanning digits stops exactly at the colon. -/
theorem digits_scan (xs r : List Char) (h : ∀ c ∈ xs, c.isDigit = true) :
    (xs ++ ':' :: r).takeWhile Char.isDigit = xs ∧
    (xs ++ ':' :: r).dropWhile Char.isDigit = ':' :: r := by
  have hcolon : (':' : Char).isDigit = false := rfl
  induction xs with
  | nil => simp [List.takeWhile_cons, List.dropWhile_cons, hcolon]
  | cons c cs ihx =>
    have hc : c.isDigit = true := h c (List.mem_cons_self c cs)
    obtain ⟨iht, ihd⟩ := ihx (fun x hx => h x (List.mem_cons_of_mem _ hx))
    constructor <;> simp [List.takeWhile_cons, List.dropWhile_cons, hc, iht, ihd]

/-- Round-trip for colon-terminated numbers. -/
theorem decNat_enc (n : Nat) (r : List Char) : decNat (encNat n ++ r) = some (n, r) := by
  obtain ⟨h1, h2, _⟩ := natToCharsGo_spec (n + 1) n (Nat.lt_succ_self n)
  have happ : encNat n ++ r = natToChars n ++ ':' :: r := by
    simp [encNat, List.append_assoc]
  obtain ⟨ht, hdw⟩ := digits_scan (natToChars n) r h2
  rw [happ]
  simp only [decNat, ht, hdw]
  exact congrArg (fun k => some (k, r)) h1

/-- Round-trip for length-prefixed strings. -/
theorem decString_enc (s : String) (r : List Char) :
    decString (encString s ++ r) = some (s, r) := by
  have happ : encString s ++ r = encNat s.data.length ++ (s.data ++ r) := by
    simp [encString, List.append_assoc]
  rw [happ]
  simp [decString, decNat_enc, List.take_left, List.drop_left]

/-- Round-trip for sign-magnitude integers. -/
theorem decInt_enc (i : Int) (r : List Char) : decInt (encInt i ++ r) = some (i, r) := by
  by_cases hneg : i < 0
  · have h1 : encInt i ++ r = '-' :: (encNat i.natAbs ++ r) := by
      simp [encInt, if_pos hneg]
    rw [h1]
    show (match decNat (encNat i.natAbs ++ r) with
      | some (n, r') => some (-(n : Int), r')
      | none => none) = some (i, r)
    rw [decNat_enc]
    have habs : (-(i.natAbs : Int)) = i := by omega
    show some (-(i.natAbs : Int), r) = some (i, r)
    rw [habs]
  · have h1 : encInt i ++ r = '+' :: (encNat i.natAbs ++ r) := by
      simp [encInt, if_neg hneg]
    rw [h1]
    show (match decNat (encNat i.natAbs ++ r) with
      | some (n, r') => some ((n : Int), r')
      | none => none) = some (i, r)
    rw [decNat_enc]
    have habs : ((i.natAbs : Int)) = i := by omega
    show some ((i.natAbs : Int), r) = some (i, r)
    rw [habs]

/-- Round-trip for a fixed element count. -/
theorem decListWithGo_enc {α : Type} {enc : α → List Char}
    {dec : List Char → Option (α × List Char)}
    (helem : ∀ x r, dec (enc x ++ r) = some (x, r)) :
    ∀ (xs : List α) (r : List Char),
      decListWithGo dec xs.length ((xs.map enc).flatten ++ r) = some (xs, r) := by
  intro xs
  induction xs with
  | nil => intro r; simp [decListWithGo]
  | cons x t ihx =>
    intro r
    simp only [List.map_cons, List.flatten_cons, List.length_cons, List.append_assoc]
    simp [decListWithGo, helem, ihx]

/-- Round-trip for count-prefixed lists. -/
theorem decListWith_enc {α : Type} {enc : α → List Char}
    {dec : List Char → Option (α × List Char)}
    (helem : ∀ x r, dec (enc x ++ r) = some (x, r)) (xs : List α) (r : List Char) :
    decListWith dec (encListWith enc xs ++ r) = some (xs, r) := by
  simp only [encListWith, List.append_assoc]
  simp [decListWith, decNat_enc, decListWithGo_enc helem]

/-- Round-trip for issue labels. -/
theorem decLabel_enc (label : IssueLabel) (r : List Char) :
    decLabel (encLabel label ++ r) = some (label, r) := by
  cases label with
  | mk name color => simp [encLabel, decLabel, List.append_assoc, decString_enc]

/-- Round-trip for tasks. -/
theorem decTask_enc (t : Task) (r : List Char) : decTask (encTask t ++ r) = some (t, r) := by
  cases t <;>
    simp [encTask, decTask, List.append_assoc, decNat_enc, decString_enc, decInt_enc,
      decListWith_enc decString_enc, decListWith_enc decLabel_enc]

/-- Round-trip for a length-prefixed string with nothing after it. -/
theorem decString_enc_nil (s : String) : decString (encString s) = some (s, []) := by
  simpa using decString_enc s []

/-- Round-trip for the state document: decoding restores the persisted
fields and leaves the transient caches absent. -/
theorem decStateDoc_enc (s : State) :
    decStateDoc (encStateDoc s) =
      some { s with known_labels := none, decisions_repo_id := none } := by
  simp only [encStateDoc, List.append_assoc]
  simp [decStateDoc, decListWith_enc decTask_enc, decListWith_enc decString_enc,
    decListWith_enc decInt_enc, decString_enc, decString_enc_nil]

/-- Restoring a saved snapshot yields the state with persisted fields intact
and caches reset. -/
theorem from_path_save (s : State) :
    VersionedState.from_path (State.save_chars s) =
      .ok { s with known_labels := none, decisions_repo_id := none } := by
  have hsplit : splitAtNewline (State.save_chars s) = some (['1'], encStateDoc s) := by
    simp [State.save_chars, splitAtNewline]
  have hv : parseU32 ['1'] = some 1 := rfl
  simp [VersionedState.from_path, hsplit, hv, State.from_versioned, decStateDoc_enc s]

/-- C5: saving a state (version line `"1"` then the document) and restoring
the written file yields a state whose persisted fields equal the original's
and whose transient caches are both `None`; `State::from_versioned_str`
rejects any version other than 1, and a file framed with version `"2"`
fails the same way through `VersionedState::from_path`. -/
theorem c5_snapshot_roundtrip (s : State) (v : Nat) (doc : List Char)
    (h1 : s.tasks ≠ []) (h2 : s.posted_tasks ≠ []) (h3 : s.handled_wg_comments ≠ [])
    (h4 : s.handled_decisions_issues ≠ []) (hv : v ≠ 1) :
    VersionedState.from_path (State.save_chars s) =
      .ok { s with known_labels := none, decisions_repo_id := none } ∧
    State.from_versioned v doc =
      .error { msg := "unknown state file version number " ++ toString v } ∧
    VersionedState.from_path ('2' :: '\n' :: doc) =
      .error { msg := "unknown state file version number 2" } := by
  refine ⟨from_path_save s, by simp [State.from_versioned, hv], ?_⟩
  have hsplit : splitAtNewline ('2' :: '\n' :: doc) = some (['2'], doc) := by
    simp [splitAtNewline]
  have hv2 : parseU32 ['2'] = some 2 := rfl
  simp only [VersionedState.from_path, hsplit, hv2, State.from_versioned]
  rw [if_pos (by decide : (2 : Nat) ≠ 1)]
  rfl

/-- A state with non-empty queue, staging list and ledgers, for the C5
witness. -/
def sW5 : State where
  tasks := [Task.queryWGIssues "2020-01-01T00:00:00Z", Task.ensureLabel "[spec] css" "ff0000"]
  posted_tasks := [Task.closeIssue "I33"]
  handled_wg_comments := ["https://example.org/c1"]
  handled_decisions_issues := [7]
  known_labels := some [("bug", "L1")]
  decisions_repo_id := some "R1"
  last_time_wg := "2020-02-02T00:00:00Z"
  last_time_decisions := "2020-03-03T00:00:00Z"

/-- C5 witness: the concrete state `sW5` round-trips with its caches reset,
and version 2 is rejected, via `c5_snapshot_roundtrip` with every hypothesis
discharged. -/
theorem c5_witness :
    VersionedState.from_path (State.save_chars sW5) =
      .ok { sW5 with known_labels := none, decisions_repo_id := none } ∧
    State.from_versioned 2 ['x'] =
      .error { msg := "unknown state file version number " ++ toString 2 } ∧
    VersionedState.from_path ('2' :: '\n' :: ['x']) =
      .error { msg := "unknown state file version number 2" } :=
  c5_snapshot_roundtrip sW5 2 ['x'] (by decide) (by decide) (by decide) (by decide) (by decide)

end WGT
